import Mathlib

/-!
Verification of the saas-agent-project security-posture system.

We give a shallow embedding of the three components the specification
covers, translated from the Python sources:

* `src/lambda-functions/ingest/lambda_function.py` (ingest + score calculator),
* `src/lambda-functions/get-cis-results/lambda_function.py` (fleet aggregator),
* `src/saas_project/agent/agent.py` (per-host check engine).

Modelling conventions:

* Python dict `.get` access is modelled with `Option` fields plus the
  default used at each access site.
* Python strings are modelled by Lean `String` (a wrapper around
  `List Char`); the Python operations used by the sources (`in`,
  `.lower()`, `.strip()`, newline-splitting, truthiness) are defined below
  over `List Char` so that they compute in the kernel.  `str.lower` is
  modelled per-character, which agrees with Python on ASCII data.
* Python `int / int` division and `float * int` produce IEEE-754
  binary64 values.  We model a binary64 value exactly as a pair
  `(num, den) : ℕ × ℕ` of an unnormalised numerator and denominator,
  with round-to-nearest, ties-to-even.  The model covers the
  nonnegative normal range, which contains every value these programs
  produce (ratios `passed/total` with `1 ≤ total` far below `2^1022`,
  and their products with 100).
* `round(x, 2)` values (`pass_rate`) are stored scaled by 100 as a
  natural number (`..._x100` fields), using exact round-half-to-even as
  the source's rounding model (the spec, §9, explicitly leaves the
  float rounding semantics open).
* The external world of the agent (filesystem, shell commands with
  timeout) is a parameter `Env`; `Env.runShellCommand` returns exactly
  what `_run_shell_command` returns: `(stdout?, stderr)`, where a
  `none` stdout is the `None` produced on timeout or subprocess error.
  A Python exception raised by a check is modelled by `PyRes.raised`.
-/

set_option maxRecDepth 20000
set_option maxHeartbeats 4000000

/-! ### Python string primitives (over `List Char`) -/

/-- Python whitespace, the character class stripped by `str.strip()` and
matched by `\s` in GNU grep. -/
def wsB (c : Char) : Bool :=
  c == ' ' || c == '\t' || c == '\n' || c == '\r' || c == '\x0b' || c == '\x0c'

/-- Case-sensitive list prefix test (building block of Python `in`). -/
def isPrefB : List Char → List Char → Bool
  | [], _ => true
  | _ :: _, [] => false
  | a :: p, b :: s => a == b && isPrefB p s

/-- Python `p in s` (substring containment, case sensitive). -/
def hasSub : List Char → List Char → Bool
  | p, [] => p.isEmpty
  | p, s@(_ :: t) => isPrefB p s || hasSub p t

/-- Prefix test of an (already lowercase) pattern against a string whose
characters are lowered on the fly: building block of `p in s.lower()`. -/
def isPrefLower : List Char → List Char → Bool
  | [], _ => true
  | _ :: _, [] => false
  | a :: p, b :: s => a == b.toLower && isPrefLower p s

/-- Python `p in s.lower()` for a lowercase pattern `p`. -/
def hasSubLower : List Char → List Char → Bool
  | p, [] => p.isEmpty
  | p, s@(_ :: t) => isPrefLower p s || hasSubLower p t

/-- Left part of Python `str.strip()`. -/
def lstripL (s : List Char) : List Char := s.dropWhile wsB

/-- Right part of Python `str.strip()`. -/
def rstripL (s : List Char) : List Char := ((s.reverse.dropWhile wsB)).reverse

/-- Python `str.strip()` with no argument. -/
def pystripL (s : List Char) : List Char := rstripL (lstripL s)

/-- The Python newline join (str.join with a newline separator) on raw
character lists. -/
def joinNl : List (List Char) → List Char
  | [] => []
  | [l] => l
  | l :: rest => l ++ '\n' :: joinNl rest

/-- Python newline splitting (str.split with a newline separator) on raw
character lists. -/
def splitNl : List Char → List (List Char)
  | [] => [[]]
  | c :: rest =>
    match splitNl rest with
    | [] => [[c]]
    | h :: t => if c = '\n' then [] :: h :: t else (c :: h) :: t

/-- Python `p in s` at `String` level. -/
def pyContains (p s : String) : Bool := hasSub p.data s.data

/-- Python `p in s.lower()` at `String` level, `p` a lowercase literal. -/
def pyContainsLower (p s : String) : Bool := hasSubLower p.data s.data

/-- Python truthiness of a string: `False` exactly on `""`. -/
def pyTruthyS (s : String) : Bool := !s.data.isEmpty

/-- Python truthiness of an optional string (`None` and `""` are falsy). -/
def pyTruthy : Option String → Bool
  | none => false
  | some s => pyTruthyS s

/-- Python `str.strip()` at `String` level. -/
def pyStrip (s : String) : String := ⟨pystripL s.data⟩

/-! ### IEEE-754 binary64 model (exact, over ℕ pairs)

A nonnegative binary64 value is represented exactly as a fraction
`(num, den)`.  `fl64 a b` is the binary64 value nearest to `a / b`
(ties to even), i.e. the result of a correctly rounded floating-point
operation whose exact value is `a / b`. -/

/-- Round `a / b` (with `b ≠ 0`) to the nearest natural number,
ties to even — IEEE round-to-nearest-even at integer granularity. -/
def rneN (a b : ℕ) : ℕ :=
  let q := a / b
  let r := a % b
  if 2 * r < b then q else if b < 2 * r then q + 1 else if q % 2 = 0 then q else q + 1

/-- Binade exponent `e` of the positive fraction `a / b`, so that
`2 ^ e ≤ a / b < 2 ^ (e + 1)`; fuel-structured so that it computes in
the kernel (fuel 2200 covers the whole binary64 range). -/
def binExpN : ℕ → ℕ → ℕ → ℤ
  | 0, _, _ => 0
  | fuel + 1, a, b =>
    if a < b then binExpN fuel (2 * a) b - 1
    else if 2 * b ≤ a then binExpN fuel a (2 * b) + 1
    else 0

/-- Correctly round the exact fraction `a / b` to binary64 (normal
range, round to nearest, ties to even), returned as an exact fraction:
the 53-bit significand is `rneN` of the fraction scaled into
`[2^52, 2^53)`. -/
def fl64 (a b : ℕ) : ℕ × ℕ :=
  if a = 0 then (0, 1)
  else
    let e := binExpN 2200 a b
    if e ≤ 52 then (rneN (a * 2 ^ (52 - e).toNat) b, 2 ^ (52 - e).toNat)
    else (rneN a (b * 2 ^ (e - 52).toNat) * 2 ^ (e - 52).toNat, 1)

/-- `int((passed_checks / total_checks * 100)) if total_checks > 0 else 0`
from the ingest lambda, line 78: `/` is CPython's correctly rounded
binary64 true division, `* 100` a correctly rounded binary64 product,
`int(·)` truncation (= floor on these nonnegative values). -/
def securityScoreN (passed_checks total_checks : ℕ) : ℕ :=
  if 0 < total_checks then
    let q1 := fl64 passed_checks total_checks
    let q2 := fl64 (q1.1 * 100) q1.2
    q2.1 / q2.2
  else 0

/-- The specification's score function, stated from its words
(§4.2, §8): `floor(passed_checks / total_checks * 100)` in exact
arithmetic, and `0` when `total_checks == 0`. -/
def specSecurityScore (passed_checks total_checks : ℕ) : ℕ :=
  if 0 < total_checks then passed_checks * 100 / total_checks else 0

/-! ### Shared payload data (agent output / ingest input / stored record) -/

/-- One element of the `cis_results` list as the lambdas read it: a dict
whose keys are accessed with `.get`, hence `Option` fields. -/
structure CisResult where
  check : Option String
  status : Option String
  evidence : Option String
deriving DecidableEq

/-- `result.get("check", "Unknown")` of the aggregator, line 70. -/
def resultCheckName (r : CisResult) : String := r.check.getD "Unknown"

/-- `result.get("status", "unknown")` of the aggregator, line 71. -/
def resultStatus (r : CisResult) : String := r.status.getD "unknown"

/-- `result.get("evidence", "No evidence")` of the aggregator, line 84. -/
def resultEvidence (r : CisResult) : String := r.evidence.getD "No evidence"

/-! ### Ingest lambda (`lambda-functions/ingest/lambda_function.py`) -/

/-- The `host_details` dict; only `hostname` is read by the lambda. -/
structure HostDetails where
  hostname : Option String
deriving DecidableEq

/-- One `installed_packages` element. -/
structure InstalledPackage where
  name : String
  version : String
deriving DecidableEq

/-- A parsed ingest request body (a dict read with `.get` and defaults,
and a dict membership test for the host_details key). -/
structure IngestBody where
  host_details : Option HostDetails
  installed_packages : List InstalledPackage
  cis_results : List CisResult
  agent_version : Option String
deriving DecidableEq

/-- The `metrics` section of the stored item (lines 108–113). -/
structure Metrics where
  security_score : ℕ
  passed_checks : ℕ
  total_checks : ℕ
  total_packages : ℕ
deriving DecidableEq

/-- The `metadata` section of the stored item (lines 114–120);
timestamps are the integer epoch seconds the code computes, and
`updated_at` the ISO string. -/
structure Metadata where
  agent_version : String
  last_ip : String
  first_seen : ℕ
  last_seen : ℕ
  updated_at : String
deriving DecidableEq

/-- The item written to DynamoDB (lines 101–121); the `data` section is
inlined as its three fields. -/
structure StoredItem where
  hostname : String
  host_details : HostDetails
  installed_packages : List InstalledPackage
  cis_results : List CisResult
  metrics : Metrics
  metadata : Metadata
deriving DecidableEq

/-- Outcome of one ingest call: the 400 validation responses
(lines 41–65) or the 200 success response carrying the stored item. -/
inductive IngestOutcome where
  | validationError : String → IngestOutcome
  | success : StoredItem → IngestOutcome
deriving DecidableEq

/-- `ingest` handler, lines 39–147.  The DynamoDB table is the map
`store`; `lookupRaises` selects the `except` branch of the
`get_item` lookup (lines 95–97), which is independent of the store's
content.  Returns the response outcome and the table after the call
(`put_item` overwrites the key, line 128; validation errors return
before any write). -/
def ingest_lambda_handler (body : IngestBody) (store : String → Option StoredItem)
    (lookupRaises : Bool) (source_ip : String) (current_timestamp : ℕ)
    (nowIso : String) : IngestOutcome × (String → Option StoredItem) :=
  match body.host_details with
  | none => (.validationError "Missing required field: host_details", store)
  | some hd =>
    match hd.hostname with
    | none => (.validationError "Missing hostname in host_details", store)
    | some hostname =>
      if hostname.data.isEmpty then
        (.validationError "Missing hostname in host_details", store)
      else
        let installed_packages := body.installed_packages
        let cis_results := body.cis_results
        let agent_version := body.agent_version.getD "1.0.0"
        let total_checks := cis_results.length
        let passed_checks := cis_results.countP (fun r => r.status == some "pass")
        let security_score := securityScoreN passed_checks total_checks
        let total_packages := installed_packages.length
        let first_seen :=
          if lookupRaises then current_timestamp
          else
            match store hostname with
            | some existing_item => existing_item.metadata.first_seen
            | none => current_timestamp
        let item : StoredItem :=
          ⟨hostname, hd, installed_packages, cis_results,
            ⟨security_score, passed_checks, total_checks, total_packages⟩,
            ⟨agent_version, source_ip, first_seen, current_timestamp, nowIso⟩⟩
        (.success item, fun k => if k = hostname then some item else store k)

/-- Is the outcome a 400 validation error? -/
def isValidationError : IngestOutcome → Bool
  | .validationError _ => true
  | .success _ => false

/-- The metrics of a success outcome. -/
def outcomeMetrics : IngestOutcome → Option Metrics
  | .validationError _ => none
  | .success item => some item.metrics

/-! ### Fleet aggregator (`lambda-functions/get-cis-results/lambda_function.py`) -/

/-- What the aggregator reads from one stored item: the hostname and the
cis_results list nested under the data key (lines 66–67). -/
structure HostItem where
  hostname : String
  cis_results : List CisResult
deriving DecidableEq

/-- One `failed_hosts` entry (lines 82–85). -/
structure FailedHost where
  hostname : String
  evidence : String
deriving DecidableEq

/-- The per-check record held in `check_stats`; `pass_rate` is stored
scaled by 100 (`round(x, 2) * 100` is integral in exact arithmetic). -/
structure CheckStats where
  pass_count : ℕ
  fail_count : ℕ
  pass_rate_x100 : ℕ
  failed_hosts : List FailedHost
deriving DecidableEq

/-- The `defaultdict` default entry (lines 57–62). -/
def emptyStats : CheckStats := ⟨0, 0, 0, []⟩

/-- `check_stats[name] = f(check_stats[name])`: mutate the entry for
`name` in the insertion-ordered dict, creating the `defaultdict` default
at the end on first access. -/
def updateStats (m : List (String × CheckStats)) (name : String)
    (f : CheckStats → CheckStats) : List (String × CheckStats) :=
  match m with
  | [] => [(name, f emptyStats)]
  | (n, s) :: rest =>
    if n = name then (n, f s) :: rest else (n, s) :: updateStats rest name f

/-- The mutable state of the aggregation loop (lines 50–62). -/
structure AggState where
  total_checks : ℕ
  total_passed : ℕ
  total_failed : ℕ
  stats : List (String × CheckStats)
deriving DecidableEq

/-- Body of the inner loop over one host's results (lines 69–85). -/
def stepResult (hostname : String) (acc : AggState) (r : CisResult) : AggState :=
  let check_name := resultCheckName r
  let status := resultStatus r
  let acc1 : AggState := { acc with total_checks := acc.total_checks + 1 }
  if status = "pass" then
    { acc1 with
      total_passed := acc1.total_passed + 1,
      stats := updateStats acc1.stats check_name
        (fun s => { s with pass_count := s.pass_count + 1 }) }
  else if status = "fail" then
    { acc1 with
      total_failed := acc1.total_failed + 1,
      stats := updateStats acc1.stats check_name
        (fun s => { s with
          fail_count := s.fail_count + 1,
          failed_hosts := s.failed_hosts ++ [⟨hostname, resultEvidence r⟩] }) }
  else acc1

/-- The two nested loops of lines 65–85. -/
def aggState (items : List HostItem) : AggState :=
  items.foldl (fun acc item => item.cis_results.foldl (stepResult item.hostname) acc)
    ⟨0, 0, 0, []⟩

/-- `round((pass / total) * 100, 2)` scaled by 100: exact
round-half-to-even of `pass * 10000 / total`. -/
def passRateX100 (pass total : ℕ) : ℕ := rneN (pass * 10000) total

/-- The pass-rate loop of lines 89–92: entries with
`pass_count + fail_count = 0` keep the default rate `0`. -/
def finalizeRates (m : List (String × CheckStats)) : List (String × CheckStats) :=
  m.map (fun p =>
    let total := p.2.pass_count + p.2.fail_count
    if 0 < total then
      (p.1, { p.2 with pass_rate_x100 := passRateX100 p.2.pass_count total })
    else p)

/-- One element of `checks_summary` (lines 96–104). -/
structure PerCheck where
  check_name : String
  pass_count : ℕ
  fail_count : ℕ
  pass_rate_x100 : ℕ
  failed_hosts : List FailedHost
deriving DecidableEq

/-- `checks_summary` before the sort, in `check_stats` insertion order
(lines 96–104). -/
def checksBeforeSort (items : List HostItem) : List PerCheck :=
  (finalizeRates (aggState items).stats).map
    (fun p => ⟨p.1, p.2.pass_count, p.2.fail_count, p.2.pass_rate_x100, p.2.failed_hosts⟩)

/-- The sort key order of line 106 (ascending `pass_rate`). -/
def byPassRate (a b : PerCheck) : Prop := a.pass_rate_x100 ≤ b.pass_rate_x100

instance : DecidableRel byPassRate := fun a b => Nat.decLe a.pass_rate_x100 b.pass_rate_x100

instance : IsTotal PerCheck byPassRate := ⟨fun a b => Nat.le_total a.pass_rate_x100 b.pass_rate_x100⟩

instance : IsTrans PerCheck byPassRate := ⟨fun _ _ _ => Nat.le_trans⟩

/-- The `summary` section of the response (lines 120–126);
`overall_pass_rate` scaled by 100 like the per-check rates. -/
structure FleetSummary where
  total_hosts : ℕ
  total_checks : ℕ
  total_passed : ℕ
  total_failed : ℕ
  overall_pass_rate_x100 : ℕ
deriving DecidableEq

/-- The whole 200 response body of lines 119–130. -/
structure FleetResponse where
  summary : FleetSummary
  checks : List PerCheck
  critical_checks : List PerCheck
  top_failing_checks : List PerCheck
deriving DecidableEq

/-- `get-cis-results` handler, lines 40–130, on the scanned items.
`checks_summary.sort(key=...)` is Python's stable sort, whose output is
the unique sorted permutation preserving the relative order of equal
keys; `List.insertionSort` with `≤` on the key computes exactly that
permutation (stability is proved below, not assumed). -/
def getCisResults (items : List HostItem) : FleetResponse :=
  let st := aggState items
  let checks_summary := List.insertionSort byPassRate (checksBeforeSort items)
  { summary :=
      ⟨items.length, st.total_checks, st.total_passed, st.total_failed,
        if 0 < st.total_checks then passRateX100 st.total_passed st.total_checks else 0⟩,
    checks := checks_summary,
    critical_checks := checks_summary.filter (fun c => c.pass_rate_x100 < 5000),
    top_failing_checks := checks_summary.take 5 }

/-! Spec-side counting functions used to state the aggregation claims. -/

/-- All `(hostname, result)` pairs in loop order. -/
def hostPairs (items : List HostItem) : List (String × CisResult) :=
  items.flatMap (fun item => item.cis_results.map (fun r => (item.hostname, r)))

/-- The flattened loop body. -/
def stepPair (acc : AggState) (p : String × CisResult) : AggState :=
  stepResult p.1 acc p.2

/-- Does `p` report check `name` with status `pass`? -/
def isPassOf (name : String) (p : String × CisResult) : Bool :=
  resultCheckName p.2 == name && resultStatus p.2 == "pass"

/-- Does `p` report check `name` with status `fail`? -/
def isFailOf (name : String) (p : String × CisResult) : Bool :=
  resultCheckName p.2 == name && resultStatus p.2 == "fail"

/-- The `failed_hosts` list recomputed from scratch for check `name`. -/
def failedOf (l : List (String × CisResult)) (name : String) : List FailedHost :=
  (l.filter (isFailOf name)).map (fun p => ⟨p.1, resultEvidence p.2⟩)

/-- Number of hosts whose result list mentions check `name` at all. -/
def hostsReporting (items : List HostItem) (name : String) : ℕ :=
  items.countP (fun item => item.cis_results.any (fun r => resultCheckName r == name))

/-! ### Check engine (`saas_project/agent/agent.py`) -/

/-- The host environment a check run observes: `runShellCommand c` is
the pair `_run_shell_command(c)` returns (lines 105–122) — the stripped
stdout, or `none` for the `None` produced on `TimeoutExpired` or any
other exception, together with the stderr/error string —; `fileExists`
is `os.path.exists`. -/
structure Env where
  runShellCommand : String → Option String × String
  fileExists : String → Bool

/-- Result of a Python call that may raise: `raised` carries the
exception description. -/
inductive PyRes (alpha : Type) where
  | raised : String → PyRes alpha
  | ok : alpha → PyRes alpha
deriving DecidableEq

instance : Monad PyRes where
  pure := .ok
  bind := fun r f =>
    match r with
    | .raised m => .raised m
    | .ok a => f a

/-- The `TypeError` raised by `"x" in None`. -/
def typeErrorNoneMsg : String := "TypeError: argument of type NoneType is not iterable"

/-- One check result dict produced by the agent (always has all three
keys, as string values). -/
structure CheckResult where
  check : String
  status : String
  evidence : String
deriving DecidableEq

/-- A single-quote character, used inside shell command strings. -/
def sqChar : String := ⟨[Char.ofNat 39]⟩

/-- `/etc/ssh/sshd_config` (line 130). -/
def sshConfigFile : String := "/etc/ssh/sshd_config"

/-- The grep command of line 140. -/
def grepRootLoginCmd : String :=
  "grep -Ei " ++ sqChar ++ "^\\s*PermitRootLogin" ++ sqChar ++ " " ++ sshConfigFile

/-- `check_root_login`, lines 125–153. -/
def check_root_login (env : Env) : PyRes CheckResult :=
  if env.fileExists sshConfigFile = false then
    .ok ⟨"CIS 5.2.4 SSH Root Login", "fail",
      "SSH config not found at " ++ sshConfigFile⟩
  else
    let output := (env.runShellCommand grepRootLoginCmd).1
    if pyTruthy output && pyContainsLower "yes" (output.getD "") then
      .ok ⟨"CIS 5.2.4 SSH Root Login", "fail",
        "Root login is enabled in " ++ sshConfigFile⟩
    else
      .ok ⟨"CIS 5.2.4 SSH Root Login", "pass", "Root login is properly disabled"⟩

/-- `check_firewall_enabled`, lines 155–182. -/
def check_firewall_enabled (env : Env) : PyRes CheckResult :=
  let output1 := (env.runShellCommand "ufw status").1
  if pyTruthy output1 && pyContains "Status: active" (output1.getD "") then
    .ok ⟨"CIS 3.5.x Firewall Enabled", "pass", "ufw firewall is active"⟩
  else
    let output2 := (env.runShellCommand "systemctl is-active firewalld").1
    if output2 = some "active" then
      .ok ⟨"CIS 3.5.x Firewall Enabled", "pass", "firewalld is active"⟩
    else
      .ok ⟨"CIS 3.5.x Firewall Enabled", "fail", "No active firewall detected"⟩

/-- `check_auditd_running`, lines 185–204.  Note: `output` is used with
`in` without a `None` guard, so a timed-out or failed command raises
`TypeError`. -/
def check_auditd_running (env : Env) : PyRes CheckResult :=
  let output := (env.runShellCommand "systemctl is-active auditd && systemctl is-enabled auditd").1
  match output with
  | none => .raised typeErrorNoneMsg
  | some s =>
    if pyContains "active" s && pyContains "enabled" s then
      .ok ⟨"CIS 4.1.1.2 Auditd Service", "pass", "auditd is running and enabled"⟩
    else
      .ok ⟨"CIS 4.1.1.2 Auditd Service", "fail", "auditd is not properly configured"⟩

/-- `check_apparmor_enabled`, lines 206–215. -/
def check_apparmor_enabled (env : Env) : PyRes CheckResult :=
  let stdout1 := (env.runShellCommand "systemctl is-active apparmor").1
  if stdout1 = some "active" then
    .ok ⟨"CIS 1.6.1 AppArmor Enabled", "pass", "AppArmor is active."⟩
  else
    let stdout2 := (env.runShellCommand "sestatus").1
    if pyTruthy stdout2 && pyContains "SELinux status:                 enabled" (stdout2.getD "")
        && pyContains "Current mode:                 enforcing" (stdout2.getD "") then
      .ok ⟨"CIS 1.6.1 SELinux Enabled", "pass", "SELinux is enabled and in enforcing mode."⟩
    else
      .ok ⟨"CIS 1.6.1 AppArmor/SELinux", "fail", "Neither AppArmor nor enforcing SELinux is active."⟩

/-- The newline join of the first ten newline-separated pieces of stdout,
line 228. -/
def firstTenLines (s : String) : String := ⟨joinNl ((splitNl s.data).take 10)⟩

/-- `check_world_writable_files`, lines 217–230. -/
def check_world_writable_files (env : Env) : PyRes CheckResult :=
  let r := env.runShellCommand "find / -xdev -type f -perm -0002"
  let stdout := r.1
  let stderr := r.2
  if pyTruthyS stderr && pyContains "timed out" stderr then
    .ok ⟨"CIS 6.1.4 World-Writable Files", "fail", "Check timed out after 30 seconds."⟩
  else
    match stdout with
    | some s =>
      if pyTruthyS s then
        .ok ⟨"CIS 6.1.4 World-Writable Files", "fail",
          "Found world-writable files, e.g.:\n" ++ firstTenLines s⟩
      else
        .ok ⟨"CIS 6.1.4 World-Writable Files", "pass",
          "No world-writable files found in the given time."⟩
    | none =>
      .ok ⟨"CIS 6.1.4 World-Writable Files", "pass",
        "No world-writable files found in the given time."⟩

/-- One iteration of the module loop in `check_unused_filesystems`
(lines 235–239): `True` when the module must be added to `failures`.
`"install /bin/true" not in stdout` raises on a `None` stdout; the
`lsmod` command has already run by then. -/
def moduleNotDisabled (env : Env) (module : String) : PyRes Bool :=
  let stdout := (env.runShellCommand ("modprobe -n -v " ++ module)).1
  let lsmod_out := (env.runShellCommand ("lsmod | grep " ++ module)).1
  match stdout with
  | none => .raised typeErrorNoneMsg
  | some s => .ok (!pyContains "install /bin/true" s || pyTruthy lsmod_out)

/-- The `failures` accumulation loop of lines 234–239. -/
def failuresFor (env : Env) : List String → PyRes (List String)
  | [] => .ok []
  | module :: rest => do
    let bad ← moduleNotDisabled env module
    let tail ← failuresFor env rest
    pure (if bad then module :: tail else tail)

/-- `check_unused_filesystems`, lines 231–243. -/
def check_unused_filesystems (env : Env) : PyRes CheckResult := do
  let failures ← failuresFor env ["cramfs", "squashfs", "udf"]
  if failures.isEmpty then
    pure ⟨"CIS 1.1.1 Unused Filesystems", "pass", "Required filesystems are disabled."⟩
  else
    pure ⟨"CIS 1.1.1 Unused Filesystems", "fail",
      "Modules not disabled: " ++ String.intercalate ", " failures⟩

/-- `check_time_sync`, lines 245–252. -/
def check_time_sync (env : Env) : PyRes CheckResult :=
  let stdout_chrony := (env.runShellCommand "systemctl is-active chrony").1
  let stdout_ntpd := (env.runShellCommand "systemctl is-active ntpd").1
  if stdout_chrony = some "active" || stdout_ntpd = some "active" then
    let service := if stdout_chrony = some "active" then "chrony" else "ntpd"
    .ok ⟨"CIS 2.2.1.1 Time Synchronization", "pass", service ++ " is active."⟩
  else
    .ok ⟨"CIS 2.2.1.1 Time Synchronization", "fail",
      "No time synchronization service (chrony or ntpd) is active."⟩

/-- `/etc/pam.d/common-password` (line 256). -/
def pamPasswordFile : String := "/etc/pam.d/common-password"

/-- The grep command of line 260. -/
def grepPamCmd : String :=
  "grep -E " ++ sqChar ++ "pam_pwquality.so|pam_cracklib.so" ++ sqChar ++ " " ++ pamPasswordFile

/-- `check_password_policies`, lines 254–263.  `"retry=3" in stdout`
raises on a `None` stdout. -/
def check_password_policies (env : Env) : PyRes CheckResult :=
  if env.fileExists pamPasswordFile = false then
    .ok ⟨"CIS 5.3.1 Password Policies", "fail", pamPasswordFile ++ " not found."⟩
  else
    let stdout := (env.runShellCommand grepPamCmd).1
    match stdout with
    | none => .raised typeErrorNoneMsg
    | some s =>
      if pyContains "retry=3" s
          && (pyContains "minlen=14" s || pyContains "dcredit=-1" s || pyContains "ucredit=-1" s) then
        .ok ⟨"CIS 5.3.1 Password Policies", "pass", "Password policies appear to be configured."⟩
      else
        .ok ⟨"CIS 5.3.1 Password Policies", "fail",
          "Password quality settings not found or insufficient in " ++ pamPasswordFile ++ "."⟩

/-- `/etc/gdm3/custom.conf` (line 268). -/
def gdmConfigFile : String := "/etc/gdm3/custom.conf"

/-- The grep command of line 272. -/
def grepGdmCmd : String :=
  "grep -Ei " ++ sqChar ++ "AutomaticLoginEnable|AutomaticLogin" ++ sqChar ++ " " ++ gdmConfigFile

/-- `check_gdm_autologin_disabled`, lines 265–275. -/
def check_gdm_autologin_disabled (env : Env) : PyRes CheckResult :=
  if env.fileExists gdmConfigFile = false then
    .ok ⟨"CIS 6.2.1 GDM Auto-Login", "pass",
      "GDM not installed or " ++ gdmConfigFile ++ " not found (pass for servers)."⟩
  else
    let stdout := (env.runShellCommand grepGdmCmd).1
    if pyTruthy stdout && pyContainsLower "true" (stdout.getD "") then
      .ok ⟨"CIS 6.2.1 GDM Auto-Login", "fail",
        "Automatic login is enabled in " ++ gdmConfigFile ++ "."⟩
    else
      .ok ⟨"CIS 6.2.1 GDM Auto-Login", "pass", "Automatic login is disabled."⟩

/-- `check_sudo_nopasswd`, lines 277–283. -/
def check_sudo_nopasswd (env : Env) : PyRes CheckResult :=
  let stdout := (env.runShellCommand "grep -r NOPASSWD /etc/sudoers.d/ /etc/sudoers").1
  match stdout with
  | some s =>
    if pyTruthyS s then
      .ok ⟨"Bonus: Sudo NOPASSWD", "fail", "Users with NOPASSWD in sudoers:\n" ++ s⟩
    else
      .ok ⟨"Bonus: Sudo NOPASSWD", "pass",
        "No users found with NOPASSWD in sudoers configuration."⟩
  | none =>
    .ok ⟨"Bonus: Sudo NOPASSWD", "pass",
      "No users found with NOPASSWD in sudoers configuration."⟩

/-- `run_all_checks`, lines 286–303: the ten rule calls in catalog
order; an exception raised by any rule aborts the whole list
construction. -/
def run_all_checks (env : Env) : PyRes (List CheckResult) := do
  let r1 ← check_root_login env
  let r2 ← check_firewall_enabled env
  let r3 ← check_auditd_running env
  let r4 ← check_apparmor_enabled env
  let r5 ← check_world_writable_files env
  let r6 ← check_unused_filesystems env
  let r7 ← check_time_sync env
  let r8 ← check_password_policies env
  let r9 ← check_gdm_autologin_disabled env
  let r10 ← check_sudo_nopasswd env
  pure [r1, r2, r3, r4, r5, r6, r7, r8, r9, r10]

/-! ### A grep model for the SSH root-login rule (claim C8)

`check_root_login` shells out to
grep with the case-insensitive anchored pattern for PermitRootLogin over
/etc/ssh/sshd_config.  To settle C8 we
model that one command over the config file's lines: grep selects the
lines with optional leading whitespace followed by `PermitRootLogin`
case-insensitively, prints them joined by newlines, and
`_run_shell_command` strips the result. -/

/-- Does `grep -Ei` regex `^\s*PermitRootLogin` match the line? -/
def matchPermitRootLogin (l : String) : Bool :=
  isPrefLower "permitrootlogin".data (l.data.dropWhile wsB)

/-- The stripped stdout `_run_shell_command` hands back for the grep of
line 140, on a config file with the given lines. -/
def grepRootLoginOut (lines : List String) : String :=
  pyStrip ⟨joinNl ((lines.filter matchPermitRootLogin).map String.data)⟩

/-- The environment of a host whose SSH config is `lines` (or absent
when `present = false`); only the one command `check_root_login` runs
is given meaning. -/
def envForConfig (present : Bool) (lines : List String) : Env where
  runShellCommand := fun c =>
    if c = grepRootLoginCmd then (some (grepRootLoginOut lines), "") else (some "", "")
  fileExists := fun p => if p = sshConfigFile then present else false

/-- Stated from the spec's words (§4.1): does this line carry an
uncommented `PermitRootLogin` directive whose value is `yes`
(case-insensitive)? -/
def specLineSetsRootLoginYes (l : String) : Bool :=
  let rest := l.data.dropWhile wsB
  if isPrefLower "permitrootlogin".data rest then
    (((rest.drop 15).dropWhile wsB).takeWhile (fun c => !wsB c)).map Char.toLower == "yes".data
  else false

/-- Stated from the spec's words (§4.1): `Fail` if the config file is
absent or a directive sets root login to `yes`; else `Pass`. -/
def specRootLoginStatus (present : Bool) (lines : List String) : String :=
  if present = false then "fail"
  else if lines.any specLineSetsRootLoginYes then "fail"
  else "pass"

/-! ### Concrete inputs used by counterexamples and witnesses -/

/-- A passing result for claim C1's payload. -/
def passResultC1 : CisResult := ⟨some "CIS check", some "pass", some "ok"⟩

/-- A failing result for claim C1's payload. -/
def failResultC1 : CisResult := ⟨some "CIS check", some "fail", some "bad"⟩

/-- An ingest body with 100 check results of which exactly 29 pass. -/
def bodyC1 : IngestBody :=
  ⟨some ⟨some "host-29"⟩, [],
    List.replicate 29 passResultC1 ++ List.replicate 71 failResultC1, none⟩

/-- An empty DynamoDB table. -/
def emptyStore : String → Option StoredItem := fun _ => none

/-- A host where every external command times out and no config file
exists. -/
def envAllTimeout : Env where
  runShellCommand := fun _ => (none, "Command timed out after 60 seconds.")
  fileExists := fun _ => false

/-- A host where the SSH config exists but every external command times
out. -/
def envGrepTimeout : Env where
  runShellCommand := fun _ => (none, "Command timed out after 60 seconds.")
  fileExists := fun _ => true

/-- A host (for C9's counterexample) where all files exist and every
command fails with a non-timeout subprocess error. -/
def envC9Crash : Env where
  runShellCommand := fun _ => (none, "unexpected error")
  fileExists := fun _ => true

/-- A host where every command succeeds with empty output and all
files exist (C9's witness environment). -/
def envAllBlank : Env where
  runShellCommand := fun _ => (some "", "")
  fileExists := fun _ => true

/-- One host reporting check `X` twice, both `pass` (C3's
counterexample: `pass_count` can exceed the number of reporting
hosts). -/
def itemsDupCheck : List HostItem :=
  [⟨"host-a", [⟨some "X", some "pass", some "ev1"⟩, ⟨some "X", some "pass", some "ev2"⟩]⟩]

/-- Two hosts: `h1` reports `X` pass and `Y` unknown, `h2` reports `X`
fail (C3's witness fleet). -/
def itemsMixed : List HostItem :=
  [⟨"h1", [⟨some "X", some "pass", some "e1"⟩, ⟨some "Y", some "unknown", some "e2"⟩]⟩,
   ⟨"h2", [⟨some "X", some "fail", some "e3"⟩]⟩]

/-- Two hosts both reporting check `X`, one `pass` one `fail` (the
spec's §8 scenario for claim C5). -/
def itemsHalf : List HostItem :=
  [⟨"hA", [⟨some "X", some "pass", some "ok"⟩]⟩,
   ⟨"hB", [⟨some "X", some "fail", some "nope"⟩]⟩]

/-- The `PerCheck` entry `getCisResults itemsHalf` produces for `X`. -/
def perCheckHalf : PerCheck := ⟨"X", 1, 1, 5000, [⟨"hB", "nope"⟩]⟩

/-- One host whose check `Z` has only an `unknown` status (C10's
witness fleet). -/
def itemsUnknownZ : List HostItem :=
  [⟨"hU", [⟨some "Z", some "unknown", some "e"⟩, ⟨some "W", some "pass", some "e"⟩]⟩]

/-- A stored record for `server-1` first seen at epoch second 5. -/
def itemC6 : StoredItem :=
  ⟨"server-1", ⟨some "server-1"⟩, [], [], ⟨0, 0, 0, 0⟩,
    ⟨"1.0.0", "10.0.0.1", 5, 5, "2026-01-01T00:00:00"⟩⟩

/-- A table holding exactly `itemC6`. -/
def storeC6 : String → Option StoredItem :=
  fun k => if k = "server-1" then some itemC6 else none

/-- A valid re-ingest body for `server-1`. -/
def bodyC6 : IngestBody := ⟨some ⟨some "server-1"⟩, [], [], none⟩

/-- A body lacking `host_details` entirely. -/
def bodyNoHostDetails : IngestBody := ⟨none, [], [], none⟩

/-- The config line of C8's counterexample: the directive value is
`no`, but the line contains the substring `yes` in a trailing
comment. -/
def linesRootLoginNo : List String := ["PermitRootLogin no # never say yes"]

/-- First-match lookup in the insertion-ordered `check_stats` dict. -/
def lookupS : List (String × CheckStats) → String → Option CheckStats
  | [], _ => none
  | (n, s) :: rest, name => if n = name then some s else lookupS rest name

/-- A well-formed check result: identifier and evidence set (non-empty)
and a `pass`/`fail` status. -/
def goodResult (r : CheckResult) : Prop :=
  r.check ≠ "" ∧ r.evidence ≠ "" ∧ (r.status = "pass" ∨ r.status = "fail")

/-- The `PerCheck` entry `getCisResults itemsMixed` produces for `X`. -/
def perCheckMixed : PerCheck := ⟨"X", 1, 1, 5000, [⟨"h2", "e3"⟩]⟩

/-- The item the ingest handler stores for a valid body (hostname
`hn` inside `host_details` `hd`). -/
def ingestItem (body : IngestBody) (hd : HostDetails) (hn : String)
    (store : String → Option StoredItem) (lookupRaises : Bool)
    (ip : String) (now : ℕ) (nowIso : String) : StoredItem :=
  ⟨hn, hd, body.installed_packages, body.cis_results,
    ⟨securityScoreN (body.cis_results.countP (fun r => r.status == some "pass"))
        body.cis_results.length,
      body.cis_results.countP (fun r => r.status == some "pass"),
      body.cis_results.length, body.installed_packages.length⟩,
    ⟨body.agent_version.getD "1.0.0", ip,
      (if lookupRaises then now
        else
          match store hn with
          | some existing_item => existing_item.metadata.first_seen
          | none => now),
      now, nowIso⟩⟩

/-- Two hosts for claim C4: `h1` reports `A` with status `unknown` and
then `B` with `pass`; `h2` reports `A` with `pass`.  `A` is the
first-encountered check_id across hosts, but its `check_stats` entry is
created only at the pass result from `h2`, after `B`. -/
def itemsTieUnknown : List HostItem :=
  [⟨"h1", [⟨some "A", some "unknown", some "e1"⟩, ⟨some "B", some "pass", some "e2"⟩]⟩,
   ⟨"h2", [⟨some "A", some "pass", some "e3"⟩]⟩]

/-- Stated from the claim's words (C4): the first-encountered insertion
order of check_ids across hosts — every result counts, whatever its
status. -/
def firstEncounteredNames (items : List HostItem) : List String :=
  (hostPairs items).foldl
    (fun ks p =>
      if ks.contains (resultCheckName p.2) then ks else ks ++ [resultCheckName p.2]) []

/-- The order in which `check_stats` entries are actually created: each
check_id appears at its first `pass`-or-`fail` result across hosts
(results with any other status never touch the defaultdict). -/
def firstPassFailNames (items : List HostItem) : List String :=
  (hostPairs items).foldl
    (fun ks p =>
      if (resultStatus p.2 == "pass" || resultStatus p.2 == "fail")
          && !ks.contains (resultCheckName p.2)
      then ks ++ [resultCheckName p.2] else ks) []

/-! ## Theorems -/

/-! ### Generic helper lemmas -/

theorem string_eq_empty_of_data_isEmpty (s : String) (h : s.data.isEmpty = true) : s = "" := by
  obtain ⟨l⟩ := s
  cases l with
  | nil => rfl
  | cons c t => simp [List.isEmpty] at h

theorem str_append_ne_empty_left (a b : String) (h : a ≠ "") : a ++ b ≠ "" := by
  obtain ⟨la⟩ := a
  obtain ⟨lb⟩ := b
  intro hc
  have hdata : la ++ lb = [] := congrArg String.data hc
  rcases List.append_eq_nil.mp hdata with ⟨h1, _⟩
  exact h (by rw [h1])

theorem str_append_ne_empty_right (a b : String) (h : b ≠ "") : a ++ b ≠ "" := by
  obtain ⟨la⟩ := a
  obtain ⟨lb⟩ := b
  intro hc
  have hdata : la ++ lb = [] := congrArg String.data hc
  rcases List.append_eq_nil.mp hdata with ⟨_, h2⟩
  exact h (by rw [h2])

/-! ### Claim C1 — the stored security score vs. the spec's floor formula -/

/-- C1: the claim fails on the code.  For a payload with 100 check
results of which exactly 29 have status `pass`, the ingest lambda
stores `passed_checks = 29` and `total_checks = 100` but
`security_score = 28`, because `int(29/100 * 100)` is evaluated in
binary64 floating point (`29/100 * 100 = 28.999999999999996`), while
the claim's `floor(passed_checks / total_checks * 100)` is `29`. -/
theorem C1_security_score_float_bug :
    outcomeMetrics (ingest_lambda_handler bodyC1 emptyStore false
        "203.0.113.7" 1700000000 "2026-02-03T04:05:06").1 = some ⟨28, 29, 100, 0⟩
    ∧ specSecurityScore 29 100 = 29 := by
  decide

/-! ### Claim C2 — the engine has a fatal path -/

/-- C2: the claim fails on the code.  In a host environment where every
external command times out (`_run_shell_command` returns a `None`
stdout), `check_auditd_running` evaluates `"active" in None` and raises
`TypeError`, aborting the whole `run_all_checks` run; moreover a rule
that cannot complete does not yield `Fail`: with the SSH config present
but the grep timed out, `check_root_login` returns `pass`. -/
theorem C2_engine_fatal_path :
    run_all_checks envAllTimeout = .raised typeErrorNoneMsg
    ∧ check_auditd_running envAllTimeout = .raised typeErrorNoneMsg
    ∧ check_root_login envGrepTimeout
        = .ok ⟨"CIS 5.2.4 SSH Root Login", "pass", "Root login is properly disabled"⟩ := by
  decide

/-! ### Claim C9 — counterexample: `run_all` does not always return -/

/-- C9 counterexample: in a host environment where the commands fail
(every stdout is `None`), `run_all_checks` raises instead of returning
a 10-element list, so "run_all always returns a list … for every host
environment" is false as stated. -/
theorem C9_crash_counterexample :
    run_all_checks envC9Crash = .raised typeErrorNoneMsg := by
  decide

/-! ### Claim C6 — counterexample: `first_seen` is reset when the lookup raises -/

/-- C6 counterexample: `server-1` is stored with `first_seen = 5`;
re-ingesting it while the `get_item` lookup raises (the `except` branch
of lines 95–97) stores `first_seen = 777`, the current time — the
stored `first_seen` is not preserved under all outcomes of the
pre-existing-record lookup. -/
theorem C6_lookup_error_counterexample :
    ((ingest_lambda_handler bodyC6 storeC6 true "10.0.0.9" 777
        "2026-01-02T00:00:00").2 "server-1").map (fun it => it.metadata.first_seen)
      = some 777
    ∧ (storeC6 "server-1").map (fun it => it.metadata.first_seen) = some 5 := by
  decide

/-! ### Claim C8 — counterexample: substring match, not directive value -/

/-- C8 counterexample: on a host whose SSH config is present and
consists of the single line `PermitRootLogin no # never say yes`, the
directive is set to `no`, so the claim requires `Pass` (the spec-side
reading `specRootLoginStatus` gives `pass`), but the rule greps the
line and tests `"yes" in output.lower()`, which is true because of the
comment, so the code returns `fail`. -/
theorem C8_comment_yes_counterexample :
    check_root_login (envForConfig true linesRootLoginNo)
      = .ok ⟨"CIS 5.2.4 SSH Root Login", "fail", "Root login is enabled in /etc/ssh/sshd_config"⟩
    ∧ specRootLoginStatus true linesRootLoginNo = "pass" := by
  decide

/-! ### Claim C3 — counterexample: duplicated check on one host -/

/-- C3 counterexample: a single host reporting check `X` twice with
status `pass` yields `pass_count = 2` while only one host reports `X`,
so `pass_count + fail_count ≤ number of hosts reporting the check_id`
is false as stated. -/
theorem C3_duplicate_check_counterexample :
    (getCisResults itemsDupCheck).checks = [⟨"X", 2, 0, 10000, []⟩]
    ∧ hostsReporting itemsDupCheck "X" = 1
    ∧ ∃ e ∈ (getCisResults itemsDupCheck).checks,
        hostsReporting itemsDupCheck e.check_name < e.pass_count + e.fail_count := by
  decide

/-! ### Sorting lemmas (stability of the `pass_rate` sort) -/

theorem filter_orderedInsert_of_ne (a : PerCheck) (t : List PerCheck) (q : ℕ)
    (h : a.pass_rate_x100 ≠ q) :
    (t.orderedInsert byPassRate a).filter (fun e => e.pass_rate_x100 == q)
      = t.filter (fun e => e.pass_rate_x100 == q) := by
  induction t with
  | nil => simp [List.orderedInsert, h]
  | cons b t ih =>
    rw [List.orderedInsert]
    split
    · rw [List.filter_cons, if_neg (by simp [h])]
    · simp only [List.filter_cons, ih]

theorem filter_orderedInsert_of_eq (a : PerCheck) (t : List PerCheck) (q : ℕ)
    (h : a.pass_rate_x100 = q) :
    (t.orderedInsert byPassRate a).filter (fun e => e.pass_rate_x100 == q)
      = a :: t.filter (fun e => e.pass_rate_x100 == q) := by
  induction t with
  | nil => simp [List.orderedInsert, h]
  | cons b t ih =>
    rw [List.orderedInsert]
    split
    · rw [List.filter_cons, if_pos (by simp [h])]
    · rename_i hab
      have hbq : b.pass_rate_x100 ≠ q := by
        have hlt : b.pass_rate_x100 < a.pass_rate_x100 := Nat.lt_of_not_le hab
        omega
      rw [List.filter_cons, if_neg (by simp [hbq]), ih,
        List.filter_cons, if_neg (by simp [hbq])]

theorem filter_insertionSort_rate (q : ℕ) (l : List PerCheck) :
    (List.insertionSort byPassRate l).filter (fun e => e.pass_rate_x100 == q)
      = l.filter (fun e => e.pass_rate_x100 == q) := by
  induction l with
  | nil => rfl
  | cons a l ih =>
    rw [List.insertionSort]
    by_cases h : a.pass_rate_x100 = q
    · rw [filter_orderedInsert_of_eq a _ q h, ih, List.filter_cons, if_pos (by simp [h])]
    · rw [filter_orderedInsert_of_ne a _ q h, ih, List.filter_cons, if_neg (by simp [h])]

/-! ### Claim C5 — `critical_checks` is the strict `< 50.0` filter -/

/-- C5: `critical_checks` is exactly the filter of the checks list by
`pass_rate < 50.0` (strictly); every entry of the checks list with rate
below 50 is critical, and an entry with rate exactly 50.0 is not. -/
theorem C5_critical_strict (items : List HostItem) :
    (getCisResults items).critical_checks
      = (getCisResults items).checks.filter (fun c => c.pass_rate_x100 < 5000)
    ∧ (∀ e ∈ (getCisResults items).checks,
        e.pass_rate_x100 < 5000 → e ∈ (getCisResults items).critical_checks)
    ∧ (∀ e, e ∈ (getCisResults items).checks →
        e.pass_rate_x100 = 5000 → e ∉ (getCisResults items).critical_checks) := by
  refine ⟨rfl, ?_, ?_⟩
  · intro e he hlt
    exact List.mem_filter.mpr ⟨he, by simpa using hlt⟩
  · intro e _ heq hmem
    have := (List.mem_filter.mp hmem).2
    simp [heq] at this

/-- C5 witness: the spec's §8 scenario.  In the two-host fleet where
`X` passes on one host and fails on the other, the entry for `X` has
`pass_rate = 50.00` and is in `checks` but not in `critical_checks`. -/
theorem C5_critical_strict_witness :
    perCheckHalf ∈ (getCisResults itemsHalf).checks
    ∧ perCheckHalf.pass_rate_x100 = 5000
    ∧ perCheckHalf ∉ (getCisResults itemsHalf).critical_checks :=
  ⟨by decide, by decide,
    (C5_critical_strict itemsHalf).2.2 perCheckHalf (by decide) (by decide)⟩

/-! ### Reduction lemmas for the ingest handler -/

theorem ingest_reduce_noHostDetails (body : IngestBody) (store : String → Option StoredItem)
    (lookupRaises : Bool) (ip : String) (now : ℕ) (nowIso : String)
    (hb : body.host_details = none) :
    ingest_lambda_handler body store lookupRaises ip now nowIso
      = (.validationError "Missing required field: host_details", store) := by
  simp [ingest_lambda_handler, hb]

theorem ingest_reduce_noHostname (body : IngestBody) (store : String → Option StoredItem)
    (lookupRaises : Bool) (ip : String) (now : ℕ) (nowIso : String) (hd : HostDetails)
    (hb : body.host_details = some hd) (hh : hd.hostname = none) :
    ingest_lambda_handler body store lookupRaises ip now nowIso
      = (.validationError "Missing hostname in host_details", store) := by
  simp [ingest_lambda_handler, hb, hh]

theorem ingest_reduce_emptyHostname (body : IngestBody) (store : String → Option StoredItem)
    (lookupRaises : Bool) (ip : String) (now : ℕ) (nowIso : String) (hd : HostDetails)
    (hb : body.host_details = some hd) (hh : hd.hostname = some "") :
    ingest_lambda_handler body store lookupRaises ip now nowIso
      = (.validationError "Missing hostname in host_details", store) := by
  simp [ingest_lambda_handler, hb, hh]

theorem ingest_reduce_valid (body : IngestBody) (store : String → Option StoredItem)
    (lookupRaises : Bool) (ip : String) (now : ℕ) (nowIso : String)
    (hd : HostDetails) (hn : String)
    (hb : body.host_details = some hd) (hh : hd.hostname = some hn)
    (hne : hn.data.isEmpty = false) :
    ingest_lambda_handler body store lookupRaises ip now nowIso
      = (.success (ingestItem body hd hn store lookupRaises ip now nowIso),
          fun k =>
            if k = hn then some (ingestItem body hd hn store lookupRaises ip now nowIso)
            else store k) := by
  simp [ingest_lambda_handler, hb, hh, hne, ingestItem]

/-! ### Claim C7 — validation error iff hostname missing/empty, no write -/

/-- C7: the ingest handler returns a 400 validation error exactly when
the payload lacks `host_details` or `host_details.hostname` is missing
or empty; on a validation error the table is untouched; otherwise it
stores the record under its hostname (leaving every other key
unchanged) and reports success. -/
theorem C7_validation_iff (body : IngestBody) (store : String → Option StoredItem)
    (lookupRaises : Bool) (ip : String) (now : ℕ) (nowIso : String) :
    (isValidationError (ingest_lambda_handler body store lookupRaises ip now nowIso).1 = true
      ↔ body.host_details = none
        ∨ ∃ hd, body.host_details = some hd ∧ (hd.hostname = none ∨ hd.hostname = some ""))
    ∧ (isValidationError (ingest_lambda_handler body store lookupRaises ip now nowIso).1 = true
        → (ingest_lambda_handler body store lookupRaises ip now nowIso).2 = store)
    ∧ (isValidationError (ingest_lambda_handler body store lookupRaises ip now nowIso).1 = false
        → ∃ hd h item, body.host_details = some hd ∧ hd.hostname = some h ∧ h ≠ ""
            ∧ (ingest_lambda_handler body store lookupRaises ip now nowIso).1 = .success item
            ∧ item.hostname = h
            ∧ (ingest_lambda_handler body store lookupRaises ip now nowIso).2 h = some item
            ∧ ∀ k, k ≠ h → (ingest_lambda_handler body store lookupRaises ip now nowIso).2 k = store k) := by
  rcases hb : body.host_details with _ | hd
  · rw [ingest_reduce_noHostDetails body store lookupRaises ip now nowIso hb]
    simp [isValidationError, hb]
  · rcases hh : hd.hostname with _ | hn
    · rw [ingest_reduce_noHostname body store lookupRaises ip now nowIso hd hb hh]
      simp [isValidationError, hb, hh]
    · by_cases he : hn = ""
      · subst he
        rw [ingest_reduce_emptyHostname body store lookupRaises ip now nowIso hd hb hh]
        simp [isValidationError, hb, hh]
      · have hne : hn.data.isEmpty = false := by
          cases hcc : hn.data.isEmpty
          · rfl
          · exact absurd (string_eq_empty_of_data_isEmpty hn hcc) he
        rw [ingest_reduce_valid body store lookupRaises ip now nowIso hd hn hb hh hne]
        refine ⟨?_, ?_, ?_⟩
        · simp [isValidationError, hb, hh, he]
        · intro habs
          simp [isValidationError] at habs
        · intro _
          refine ⟨hd, hn, ingestItem body hd hn store lookupRaises ip now nowIso,
            rfl, hh, he, rfl, rfl, by simp, ?_⟩
          intro k hk
          simp [hk]

/-- C7 witness: a payload with no `host_details` is rejected with a
validation error and leaves the (empty) table unchanged. -/
theorem C7_validation_iff_witness :
    isValidationError (ingest_lambda_handler bodyNoHostDetails emptyStore false
        "198.51.100.2" 1 "2026-01-01T00:00:01").1 = true
    ∧ (ingest_lambda_handler bodyNoHostDetails emptyStore false
        "198.51.100.2" 1 "2026-01-01T00:00:01").2 = emptyStore := by
  have hthm := C7_validation_iff bodyNoHostDetails emptyStore false
    "198.51.100.2" 1 "2026-01-01T00:00:01"
  have hval := hthm.1.mpr (Or.inl (by decide))
  exact ⟨hval, hthm.2.1 hval⟩

/-! ### Claim C6 — `first_seen` preservation policy -/

/-- C6 (amended): for a valid body, when the pre-existing-record lookup
succeeds, re-ingesting a stored hostname preserves the stored
`metadata.first_seen` while `last_seen`/`updated_at` are set to the
current time, and a hostname not in the table gets `first_seen = now`;
but when the lookup raises, `first_seen` is reset to the current time
regardless of the stored record. -/
theorem C6_first_seen_policy (body : IngestBody) (store : String → Option StoredItem)
    (ip : String) (now : ℕ) (nowIso : String) (hd : HostDetails) (h : String)
    (hb : body.host_details = some hd) (hh : hd.hostname = some h)
    (hne : h.data.isEmpty = false) :
    (∀ existing, store h = some existing →
      ∃ item, (ingest_lambda_handler body store false ip now nowIso).1 = .success item
        ∧ item.metadata.first_seen = existing.metadata.first_seen
        ∧ item.metadata.last_seen = now ∧ item.metadata.updated_at = nowIso
        ∧ (ingest_lambda_handler body store false ip now nowIso).2 h = some item)
    ∧ (store h = none →
      ∃ item, (ingest_lambda_handler body store false ip now nowIso).1 = .success item
        ∧ item.metadata.first_seen = now ∧ item.metadata.last_seen = now
        ∧ item.metadata.updated_at = nowIso)
    ∧ (∃ item, (ingest_lambda_handler body store true ip now nowIso).1 = .success item
        ∧ item.metadata.first_seen = now ∧ item.metadata.last_seen = now
        ∧ item.metadata.updated_at = nowIso) := by
  refine ⟨?_, ?_, ?_⟩
  · intro existing hex
    rw [ingest_reduce_valid body store false ip now nowIso hd h hb hh hne]
    exact ⟨_, rfl, by simp [ingestItem, hex], rfl, rfl, by simp⟩
  · intro hex
    rw [ingest_reduce_valid body store false ip now nowIso hd h hb hh hne]
    exact ⟨_, rfl, by simp [ingestItem, hex], rfl, rfl⟩
  · rw [ingest_reduce_valid body store true ip now nowIso hd h hb hh hne]
    exact ⟨_, rfl, by simp [ingestItem], rfl, rfl⟩

/-- C6 witness: re-ingesting `server-1` (stored with `first_seen = 5`)
at time 777 with a successful lookup stores `first_seen = 5`,
`last_seen = 777` and the fresh `updated_at`. -/
theorem C6_first_seen_policy_witness :
    ∃ item, (ingest_lambda_handler bodyC6 storeC6 false "10.0.0.9" 777
        "2026-01-02T00:00:00").1 = .success item
      ∧ item.metadata.first_seen = itemC6.metadata.first_seen
      ∧ item.metadata.last_seen = 777 ∧ item.metadata.updated_at = "2026-01-02T00:00:00"
      ∧ (ingest_lambda_handler bodyC6 storeC6 false "10.0.0.9" 777
          "2026-01-02T00:00:00").2 "server-1" = some item := by
  have hthm := C6_first_seen_policy bodyC6 storeC6 "10.0.0.9" 777 "2026-01-02T00:00:00"
    ⟨some "server-1"⟩ "server-1" (by decide) (by decide) (by decide)
  exact hthm.1 itemC6 (by decide)

/-! ### Per-rule completion lemmas (for claim C9) -/

theorem pyres_bind_ok {α β : Type} (a : α) (f : α → PyRes β) : (PyRes.ok a >>= f) = f a := rfl

theorem pyres_bind_raised {α β : Type} (m : String) (f : α → PyRes β) :
    ((PyRes.raised m : PyRes α) >>= f) = .raised m := rfl

theorem pyres_pure {α : Type} (a : α) : (pure a : PyRes α) = .ok a := rfl

theorem goodResult_mk (c st e : String) (hc : c ≠ "") (he : e ≠ "")
    (hst : st = "pass" ∨ st = "fail") : goodResult ⟨c, st, e⟩ := ⟨hc, he, hst⟩

theorem check_root_login_ok (env : Env) :
    ∃ r, check_root_login env = .ok r ∧ goodResult r := by
  unfold check_root_login
  split
  · exact ⟨_, rfl, goodResult_mk _ _ _ (by decide)
      (str_append_ne_empty_left _ _ (by decide)) (Or.inr rfl)⟩
  · dsimp only
    split
    · exact ⟨_, rfl, goodResult_mk _ _ _ (by decide)
        (str_append_ne_empty_left _ _ (by decide)) (Or.inr rfl)⟩
    · exact ⟨_, rfl, goodResult_mk _ _ _ (by decide) (by decide) (Or.inl rfl)⟩

theorem check_firewall_enabled_ok (env : Env) :
    ∃ r, check_firewall_enabled env = .ok r ∧ goodResult r := by
  unfold check_firewall_enabled
  dsimp only
  split
  · exact ⟨_, rfl, goodResult_mk _ _ _ (by decide) (by decide) (Or.inl rfl)⟩
  · split
    · exact ⟨_, rfl, goodResult_mk _ _ _ (by decide) (by decide) (Or.inl rfl)⟩
    · exact ⟨_, rfl, goodResult_mk _ _ _ (by decide) (by decide) (Or.inr rfl)⟩

theorem check_auditd_running_ok (env : Env)
    (h : ∀ c, ((env.runShellCommand c).1).isSome = true) :
    ∃ r, check_auditd_running env = .ok r ∧ goodResult r := by
  unfold check_auditd_running
  obtain ⟨s, hs⟩ := Option.isSome_iff_exists.mp
    (h "systemctl is-active auditd && systemctl is-enabled auditd")
  rw [hs]
  dsimp only
  split
  · exact ⟨_, rfl, goodResult_mk _ _ _ (by decide) (by decide) (Or.inl rfl)⟩
  · exact ⟨_, rfl, goodResult_mk _ _ _ (by decide) (by decide) (Or.inr rfl)⟩

theorem check_apparmor_enabled_ok (env : Env) :
    ∃ r, check_apparmor_enabled env = .ok r ∧ goodResult r := by
  unfold check_apparmor_enabled
  dsimp only
  split
  · exact ⟨_, rfl, goodResult_mk _ _ _ (by decide) (by decide) (Or.inl rfl)⟩
  · split
    · exact ⟨_, rfl, goodResult_mk _ _ _ (by decide) (by decide) (Or.inl rfl)⟩
    · exact ⟨_, rfl, goodResult_mk _ _ _ (by decide) (by decide) (Or.inr rfl)⟩

theorem check_world_writable_files_ok (env : Env) :
    ∃ r, check_world_writable_files env = .ok r ∧ goodResult r := by
  unfold check_world_writable_files
  dsimp only
  split
  · exact ⟨_, rfl, goodResult_mk _ _ _ (by decide) (by decide) (Or.inr rfl)⟩
  · split
    · split
      · exact ⟨_, rfl, goodResult_mk _ _ _ (by decide)
          (str_append_ne_empty_left _ _ (by decide)) (Or.inr rfl)⟩
      · exact ⟨_, rfl, goodResult_mk _ _ _ (by decide) (by decide) (Or.inl rfl)⟩
    · exact ⟨_, rfl, goodResult_mk _ _ _ (by decide) (by decide) (Or.inl rfl)⟩

theorem failuresFor_ok (env : Env)
    (h : ∀ c, ((env.runShellCommand c).1).isSome = true) (ms : List String) :
    ∃ fs, failuresFor env ms = .ok fs := by
  induction ms with
  | nil => exact ⟨[], rfl⟩
  | cons m ms ih =>
    obtain ⟨fs, hfs⟩ := ih
    obtain ⟨s, hs⟩ := Option.isSome_iff_exists.mp (h ("modprobe -n -v " ++ m))
    have hstep : failuresFor env (m :: ms)
        = .ok (if (!pyContains "install /bin/true" s
              || pyTruthy ((env.runShellCommand ("lsmod | grep " ++ m)).1))
            then m :: fs else fs) := by
      unfold failuresFor moduleNotDisabled
      rw [hs]
      dsimp only
      rw [pyres_bind_ok, hfs, pyres_bind_ok]
      rfl
    exact ⟨_, hstep⟩

theorem check_unused_filesystems_ok (env : Env)
    (h : ∀ c, ((env.runShellCommand c).1).isSome = true) :
    ∃ r, check_unused_filesystems env = .ok r ∧ goodResult r := by
  obtain ⟨fs, hfs⟩ := failuresFor_ok env h ["cramfs", "squashfs", "udf"]
  unfold check_unused_filesystems
  rw [hfs, pyres_bind_ok]
  split
  · exact ⟨_, rfl, goodResult_mk _ _ _ (by decide) (by decide) (Or.inl rfl)⟩
  · exact ⟨_, rfl, goodResult_mk _ _ _ (by decide)
      (str_append_ne_empty_left _ _ (by decide)) (Or.inr rfl)⟩

theorem check_time_sync_ok (env : Env) :
    ∃ r, check_time_sync env = .ok r ∧ goodResult r := by
  unfold check_time_sync
  dsimp only
  split
  · exact ⟨_, rfl, goodResult_mk _ _ _ (by decide)
      (str_append_ne_empty_right _ _ (by decide)) (Or.inl rfl)⟩
  · exact ⟨_, rfl, goodResult_mk _ _ _ (by decide) (by decide) (Or.inr rfl)⟩

theorem check_password_policies_ok (env : Env)
    (h : ∀ c, ((env.runShellCommand c).1).isSome = true) :
    ∃ r, check_password_policies env = .ok r ∧ goodResult r := by
  unfold check_password_policies
  split
  · exact ⟨_, rfl, goodResult_mk _ _ _ (by decide)
      (str_append_ne_empty_left _ _ (by decide)) (Or.inr rfl)⟩
  · obtain ⟨s, hs⟩ := Option.isSome_iff_exists.mp (h grepPamCmd)
    rw [hs]
    dsimp only
    split
    · exact ⟨_, rfl, goodResult_mk _ _ _ (by decide) (by decide) (Or.inl rfl)⟩
    · exact ⟨_, rfl, goodResult_mk _ _ _ (by decide)
        (str_append_ne_empty_left _ _ (by decide)) (Or.inr rfl)⟩

theorem check_gdm_autologin_disabled_ok (env : Env) :
    ∃ r, check_gdm_autologin_disabled env = .ok r ∧ goodResult r := by
  unfold check_gdm_autologin_disabled
  split
  · exact ⟨_, rfl, goodResult_mk _ _ _ (by decide)
      (str_append_ne_empty_left _ _ (by decide)) (Or.inl rfl)⟩
  · dsimp only
    split
    · exact ⟨_, rfl, goodResult_mk _ _ _ (by decide)
        (str_append_ne_empty_left _ _ (by decide)) (Or.inr rfl)⟩
    · exact ⟨_, rfl, goodResult_mk _ _ _ (by decide) (by decide) (Or.inl rfl)⟩

theorem check_sudo_nopasswd_ok (env : Env) :
    ∃ r, check_sudo_nopasswd env = .ok r ∧ goodResult r := by
  unfold check_sudo_nopasswd
  dsimp only
  split
  · split
    · exact ⟨_, rfl, goodResult_mk _ _ _ (by decide)
        (str_append_ne_empty_left _ _ (by decide)) (Or.inr rfl)⟩
    · exact ⟨_, rfl, goodResult_mk _ _ _ (by decide) (by decide) (Or.inl rfl)⟩
  · exact ⟨_, rfl, goodResult_mk _ _ _ (by decide) (by decide) (Or.inl rfl)⟩

/-! ### Claim C9 — deterministic shape of `run_all_checks` (amended) -/

/-- C9 (amended): in every host environment in which each external
command yields a stdout string (the primitive reports neither timeout
nor error), `run_all_checks` completes without raising and returns
exactly ten results, one per catalog rule in catalog order, each with a
non-empty check identifier, a non-empty evidence string, and a
`pass`/`fail` status.  (The unamended claim — "for every host
environment" — is refuted by `C9_crash_counterexample`.) -/
theorem C9_run_deterministic (env : Env)
    (h : ∀ c, ((env.runShellCommand c).1).isSome = true) :
    ∃ r1 r2 r3 r4 r5 r6 r7 r8 r9 r10,
      run_all_checks env = .ok [r1, r2, r3, r4, r5, r6, r7, r8, r9, r10]
      ∧ check_root_login env = .ok r1
      ∧ check_firewall_enabled env = .ok r2
      ∧ check_auditd_running env = .ok r3
      ∧ check_apparmor_enabled env = .ok r4
      ∧ check_world_writable_files env = .ok r5
      ∧ check_unused_filesystems env = .ok r6
      ∧ check_time_sync env = .ok r7
      ∧ check_password_policies env = .ok r8
      ∧ check_gdm_autologin_disabled env = .ok r9
      ∧ check_sudo_nopasswd env = .ok r10
      ∧ ∀ r ∈ [r1, r2, r3, r4, r5, r6, r7, r8, r9, r10], goodResult r := by
  obtain ⟨r1, e1, g1⟩ := check_root_login_ok env
  obtain ⟨r2, e2, g2⟩ := check_firewall_enabled_ok env
  obtain ⟨r3, e3, g3⟩ := check_auditd_running_ok env h
  obtain ⟨r4, e4, g4⟩ := check_apparmor_enabled_ok env
  obtain ⟨r5, e5, g5⟩ := check_world_writable_files_ok env
  obtain ⟨r6, e6, g6⟩ := check_unused_filesystems_ok env h
  obtain ⟨r7, e7, g7⟩ := check_time_sync_ok env
  obtain ⟨r8, e8, g8⟩ := check_password_policies_ok env h
  obtain ⟨r9, e9, g9⟩ := check_gdm_autologin_disabled_ok env
  obtain ⟨r10, e10, g10⟩ := check_sudo_nopasswd_ok env
  refine ⟨r1, r2, r3, r4, r5, r6, r7, r8, r9, r10, ?_,
    e1, e2, e3, e4, e5, e6, e7, e8, e9, e10, ?_⟩
  · unfold run_all_checks
    rw [e1, pyres_bind_ok, e2, pyres_bind_ok, e3, pyres_bind_ok, e4, pyres_bind_ok,
      e5, pyres_bind_ok, e6, pyres_bind_ok, e7, pyres_bind_ok, e8, pyres_bind_ok,
      e9, pyres_bind_ok, e10, pyres_bind_ok]
    rfl
  · intro r hr
    simp only [List.mem_cons, List.not_mem_nil, or_false] at hr
    rcases hr with rfl | rfl | rfl | rfl | rfl | rfl | rfl | rfl | rfl | rfl
    exacts [g1, g2, g3, g4, g5, g6, g7, g8, g9, g10]

/-- C9 witness: the hypothesis holds for the concrete environment where
every command returns empty output, and there the run returns its ten
results. -/
theorem C9_run_deterministic_witness :
    ∃ r1 r2 r3 r4 r5 r6 r7 r8 r9 r10,
      run_all_checks envAllBlank = .ok [r1, r2, r3, r4, r5, r6, r7, r8, r9, r10]
      ∧ check_root_login envAllBlank = .ok r1
      ∧ check_firewall_enabled envAllBlank = .ok r2
      ∧ check_auditd_running envAllBlank = .ok r3
      ∧ check_apparmor_enabled envAllBlank = .ok r4
      ∧ check_world_writable_files envAllBlank = .ok r5
      ∧ check_unused_filesystems envAllBlank = .ok r6
      ∧ check_time_sync envAllBlank = .ok r7
      ∧ check_password_policies envAllBlank = .ok r8
      ∧ check_gdm_autologin_disabled envAllBlank = .ok r9
      ∧ check_sudo_nopasswd envAllBlank = .ok r10
      ∧ ∀ r ∈ [r1, r2, r3, r4, r5, r6, r7, r8, r9, r10], goodResult r :=
  C9_run_deterministic envAllBlank (fun _ => rfl)

/-! ### Aggregation fold characterization (for claims C3 and C10) -/

theorem aggState_eq_foldPairs (items : List HostItem) :
    aggState items = (hostPairs items).foldl stepPair ⟨0, 0, 0, []⟩ := by
  suffices hgen : ∀ acc : AggState,
      items.foldl (fun acc item => item.cis_results.foldl (stepResult item.hostname) acc) acc
        = (hostPairs items).foldl stepPair acc from hgen _
  induction items with
  | nil => intro acc; rfl
  | cons it rest ih =>
    intro acc
    rw [List.foldl_cons]
    rw [show hostPairs (it :: rest)
        = it.cis_results.map (fun r => (it.hostname, r)) ++ hostPairs rest from by
      simp [hostPairs]]
    rw [List.foldl_append, List.foldl_map, ih]
    rfl

theorem lookup_updateStats (m : List (String × CheckStats)) (name name' : String)
    (f : CheckStats → CheckStats) :
    lookupS (updateStats m name f) name'
      = if name' = name then some (f ((lookupS m name).getD emptyStats))
        else lookupS m name' := by
  induction m with
  | nil =>
    by_cases h : name' = name
    · simp [updateStats, lookupS, h]
    · simp [updateStats, lookupS, h, Ne.symm h]
  | cons p rest ih =>
    obtain ⟨n, s⟩ := p
    by_cases hn : n = name
    · subst hn
      by_cases h' : name' = n
      · subst h'
        simp [updateStats, lookupS]
      · simp [updateStats, lookupS, h', Ne.symm h']
    · by_cases h' : n = name'
      · subst h'
        have hne : ¬(n = name) := hn
        simp [updateStats, lookupS, hn, Ne.symm hn, hne]
      · simp [updateStats, lookupS, hn, h', ih]

theorem lookup_stepPair (acc : AggState) (p : String × CisResult) (name : String) :
    lookupS ((stepPair acc p).stats) name
      = if isPassOf name p then
          some (let s := (lookupS acc.stats name).getD emptyStats
            ⟨s.pass_count + 1, s.fail_count, s.pass_rate_x100, s.failed_hosts⟩)
        else if isFailOf name p then
          some (let s := (lookupS acc.stats name).getD emptyStats
            ⟨s.pass_count, s.fail_count + 1, s.pass_rate_x100,
              s.failed_hosts ++ [⟨p.1, resultEvidence p.2⟩]⟩)
        else lookupS acc.stats name := by
  unfold stepPair stepResult isPassOf isFailOf
  by_cases hp : resultStatus p.2 = "pass"
  · by_cases hname : resultCheckName p.2 = name
    · simp [hp, hname, lookup_updateStats]
    · simp [hp, hname, lookup_updateStats, Ne.symm hname]
  · by_cases hf : resultStatus p.2 = "fail"
    · by_cases hname : resultCheckName p.2 = name
      · simp [hp, hf, hname, lookup_updateStats]
      · simp [hp, hf, hname, lookup_updateStats, Ne.symm hname]
    · simp [hp, hf]

theorem failedOf_nil (name : String) : failedOf [] name = [] := rfl

theorem failedOf_cons (p : String × CisResult) (l : List (String × CisResult)) (name : String) :
    failedOf (p :: l) name
      = (if isFailOf name p then [⟨p.1, resultEvidence p.2⟩] else []) ++ failedOf l name := by
  unfold failedOf
  rw [List.filter_cons]
  split <;> simp

theorem isFailOf_eq_false_of_pass (name : String) (p : String × CisResult)
    (hp : isPassOf name p = true) : isFailOf name p = false := by
  unfold isPassOf at hp
  unfold isFailOf
  simp only [Bool.and_eq_true, beq_iff_eq] at hp
  simp [hp.2]

theorem lookup_foldPairs (l : List (String × CisResult)) (acc : AggState) (name : String) :
    lookupS ((l.foldl stepPair acc).stats) name
      = match lookupS acc.stats name with
        | some s => some ⟨s.pass_count + l.countP (isPassOf name),
                          s.fail_count + l.countP (isFailOf name),
                          s.pass_rate_x100,
                          s.failed_hosts ++ failedOf l name⟩
        | none =>
          if l.countP (isPassOf name) + l.countP (isFailOf name) = 0 then none
          else some ⟨l.countP (isPassOf name), l.countP (isFailOf name), 0, failedOf l name⟩ := by
  induction l generalizing acc with
  | nil =>
    cases hacc : lookupS acc.stats name with
    | none =>
      simp only [List.foldl_nil, hacc, List.countP_nil, failedOf_nil, Nat.add_zero,
        if_true]
    | some s =>
      simp only [List.foldl_nil, hacc, List.countP_nil, failedOf_nil, Nat.add_zero,
        List.append_nil]
  | cons p l ih =>
    rw [List.foldl_cons, ih (stepPair acc p), lookup_stepPair]
    by_cases hp : isPassOf name p = true
    · have hf : isFailOf name p = false := isFailOf_eq_false_of_pass name p hp
      have hcp : List.countP (isPassOf name) (p :: l) = List.countP (isPassOf name) l + 1 := by
        simp [List.countP_cons, hp]
      have hcf : List.countP (isFailOf name) (p :: l) = List.countP (isFailOf name) l := by
        simp [List.countP_cons, hf]
      have hfo : failedOf (p :: l) name = failedOf l name := by
        rw [failedOf_cons, hf]
        simp
      rw [hcp, hcf, hfo, if_pos hp]
      cases hacc : lookupS acc.stats name with
      | none =>
        dsimp only
        rw [if_neg (by omega)]
        simp [emptyStats]
        omega
      | some s =>
        dsimp only
        simp
        omega
    · have hp0 : isPassOf name p = false := by
        revert hp
        cases isPassOf name p <;> simp
      have hcp : List.countP (isPassOf name) (p :: l) = List.countP (isPassOf name) l := by
        simp [List.countP_cons, hp0]
      by_cases hfail : isFailOf name p = true
      · have hcf : List.countP (isFailOf name) (p :: l) = List.countP (isFailOf name) l + 1 := by
          simp [List.countP_cons, hfail]
        have hfo : failedOf (p :: l) name
            = ⟨p.1, resultEvidence p.2⟩ :: failedOf l name := by
          rw [failedOf_cons, if_pos hfail]
          simp
        rw [hcp, hcf, hfo]
        rw [hp0]
        simp only [Bool.false_eq_true, if_false, if_pos hfail]
        cases hacc : lookupS acc.stats name with
        | none =>
          dsimp only
          rw [if_neg (by omega)]
          simp [emptyStats]
          omega
        | some s =>
          dsimp only
          simp
          omega
      · have hf0 : isFailOf name p = false := by
          revert hfail
          cases isFailOf name p <;> simp
        have hcf : List.countP (isFailOf name) (p :: l) = List.countP (isFailOf name) l := by
          simp [List.countP_cons, hf0]
        have hfo : failedOf (p :: l) name = failedOf l name := by
          rw [failedOf_cons, hf0]
          simp
        rw [hcp, hcf, hfo, hp0, hf0]
        simp only [Bool.false_eq_true, if_false]

theorem totals_foldPairs (l : List (String × CisResult)) (acc : AggState) :
    (l.foldl stepPair acc).total_checks = acc.total_checks + l.length
    ∧ (l.foldl stepPair acc).total_passed
        = acc.total_passed + l.countP (fun p => resultStatus p.2 == "pass")
    ∧ (l.foldl stepPair acc).total_failed
        = acc.total_failed + l.countP (fun p => resultStatus p.2 == "fail") := by
  induction l generalizing acc with
  | nil => simp
  | cons p l ih =>
    rw [List.foldl_cons]
    obtain ⟨h1, h2, h3⟩ := ih (stepPair acc p)
    rw [List.length_cons, List.countP_cons, List.countP_cons]
    refine ⟨?_, ?_, ?_⟩ <;>
      · first
        | rw [h1] | rw [h2] | rw [h3]
        unfold stepPair stepResult
        by_cases hp : resultStatus p.2 = "pass"
        · simp [hp] <;> omega
        · by_cases hf : resultStatus p.2 = "fail"
          · simp [hp, hf] <;> omega
          · simp [hp, hf] <;> omega

theorem keys_updateStats (m : List (String × CheckStats)) (name : String)
    (f : CheckStats → CheckStats) :
    (updateStats m name f).map Prod.fst
      = if name ∈ m.map Prod.fst then m.map Prod.fst else m.map Prod.fst ++ [name] := by
  induction m with
  | nil => simp [updateStats]
  | cons p rest ih =>
    obtain ⟨n, s⟩ := p
    by_cases hn : n = name
    · subst hn
      simp [updateStats]
    · simp only [updateStats, if_neg hn, List.map_cons, ih]
      by_cases hm : name ∈ rest.map Prod.fst
      · simp [hm, Ne.symm hn]
      · simp [hm, Ne.symm hn]

theorem nodup_keys_updateStats (m : List (String × CheckStats)) (name : String)
    (f : CheckStats → CheckStats) (h : (m.map Prod.fst).Nodup) :
    ((updateStats m name f).map Prod.fst).Nodup := by
  rw [keys_updateStats]
  by_cases hm : name ∈ m.map Prod.fst
  · simpa [hm] using h
  · simp only [hm, if_false]
    rw [List.nodup_append]
    exact ⟨h, List.nodup_singleton name, by simpa using hm⟩

theorem nodup_keys_foldPairs (l : List (String × CisResult)) (acc : AggState)
    (h : (acc.stats.map Prod.fst).Nodup) :
    (((l.foldl stepPair acc).stats).map Prod.fst).Nodup := by
  induction l generalizing acc with
  | nil => simpa using h
  | cons p l ih =>
    rw [List.foldl_cons]
    refine ih (stepPair acc p) ?_
    unfold stepPair stepResult
    by_cases hp : resultStatus p.2 = "pass"
    · simp only [hp]
      simp [nodup_keys_updateStats _ _ _ h]
    · by_cases hf : resultStatus p.2 = "fail"
      · simp only [hp, hf]
        simp [nodup_keys_updateStats _ _ _ h]
      · simpa [hp, hf] using h

theorem lookup_of_mem_nodup (m : List (String × CheckStats)) (n : String) (s : CheckStats)
    (hnd : (m.map Prod.fst).Nodup) (hm : (n, s) ∈ m) : lookupS m n = some s := by
  induction m with
  | nil => cases hm
  | cons p rest ih =>
    obtain ⟨n', s'⟩ := p
    rcases List.mem_cons.mp hm with heq | htail
    · obtain ⟨rfl, rfl⟩ := Prod.mk.injEq .. ▸ heq
      · simp [lookupS]
    · have hn' : n' ≠ n := by
        intro hc
        subst hc
        have : n' ∈ rest.map Prod.fst :=
          List.mem_map.mpr ⟨(n', s), htail, rfl⟩
        exact (List.nodup_cons.mp hnd).1 this
      simp only [lookupS, if_neg hn']
      exact ih (List.nodup_cons.mp hnd).2 htail

theorem lookup_none_iff (m : List (String × CheckStats)) (n : String) :
    lookupS m n = none ↔ n ∉ m.map Prod.fst := by
  induction m with
  | nil => simp [lookupS]
  | cons p rest ih =>
    obtain ⟨n', s'⟩ := p
    by_cases hn : n' = n
    · subst hn
      simp [lookupS]
    · simp [lookupS, hn, ih, Ne.symm hn]

theorem countP_pass_add_fail_le (l : List (String × CisResult)) (name : String) :
    l.countP (isPassOf name) + l.countP (isFailOf name)
      ≤ l.countP (fun p => resultCheckName p.2 == name) := by
  induction l with
  | nil => simp
  | cons p l ih =>
    rw [List.countP_cons, List.countP_cons, List.countP_cons]
    have key : (if isPassOf name p then 1 else 0) + (if isFailOf name p then 1 else 0)
        ≤ (if (resultCheckName p.2 == name) = true then 1 else 0) := by
      unfold isPassOf isFailOf
      by_cases hn : (resultCheckName p.2 == name) = true
      · by_cases hs : resultStatus p.2 = "pass"
        · simp [hn, hs]
        · simp [hn, hs]
          split <;> omega
      · have hn' : (resultCheckName p.2 == name) = false := by
          revert hn
          cases resultCheckName p.2 == name <;> simp
        simp [hn']
    omega

theorem countP_name_le_one_of_nodup {α : Type} (f : α → String) (l : List α)
    (h : (l.map f).Nodup) (b : String) : l.countP (fun r => f r == b) ≤ 1 := by
  induction l with
  | nil => simp
  | cons a l ih =>
    rw [List.countP_cons]
    have hcons : (f a :: List.map f l).Nodup := by
      have hmap := h
      rwa [List.map_cons] at hmap
    rcases List.nodup_cons.mp hcons with ⟨hna, hnd⟩
    by_cases hb : f a = b
    · subst hb
      have h0 : l.countP (fun r => f r == f a) = 0 := by
        rw [List.countP_eq_zero]
        intro x hx
        simp only [beq_iff_eq]
        intro hc
        exact hna (hc ▸ List.mem_map_of_mem f hx)
      simp [h0]
    · have hb' : (f a == b) = false := by simp [hb]
      have := ih hnd
      simp [hb']
      omega

theorem countP_name_le_hostsReporting (items : List HostItem) (name : String)
    (h : ∀ item ∈ items, (item.cis_results.map resultCheckName).Nodup) :
    (hostPairs items).countP (fun p => resultCheckName p.2 == name)
      ≤ hostsReporting items name := by
  induction items with
  | nil => simp [hostPairs, hostsReporting]
  | cons it rest ih =>
    have hpairs : hostPairs (it :: rest)
        = it.cis_results.map (fun r => (it.hostname, r)) ++ hostPairs rest := by
      simp [hostPairs]
    rw [hpairs, List.countP_append]
    have hinner : (it.cis_results.map (fun r => (it.hostname, r))).countP
          (fun p => resultCheckName p.2 == name)
        = it.cis_results.countP (fun r => resultCheckName r == name) := by
      rw [List.countP_map]
      rfl
    rw [hinner]
    have hle1 : it.cis_results.countP (fun r => resultCheckName r == name) ≤ 1 :=
      countP_name_le_one_of_nodup resultCheckName it.cis_results
        (h it (List.mem_cons_self it rest)) name
    have hrest := ih (fun x hx => h x (List.mem_cons_of_mem it hx))
    unfold hostsReporting
    rw [List.countP_cons]
    unfold hostsReporting at hrest
    by_cases hz : it.cis_results.countP (fun r => resultCheckName r == name) = 0
    · rw [hz]
      split <;> omega
    · have hpos : 0 < it.cis_results.countP (fun r => resultCheckName r == name) := by omega
      have hany : it.cis_results.any (fun r => resultCheckName r == name) = true := by
        rw [List.any_eq_true]
        obtain ⟨x, hx, hpx⟩ := List.countP_pos_iff.mp hpos
        exact ⟨x, hx, hpx⟩
      rw [hany]
      simp only [if_true]
      omega

theorem checksBeforeSort_names (items : List HostItem) :
    (checksBeforeSort items).map PerCheck.check_name
      = ((aggState items).stats).map Prod.fst := by
  unfold checksBeforeSort finalizeRates
  rw [List.map_map, List.map_map]
  apply List.map_congr_left
  intro p _
  dsimp only [Function.comp]
  split <;> rfl

theorem checks_entry_characterization (items : List HostItem) (e : PerCheck)
    (he : e ∈ (getCisResults items).checks) :
    e.pass_count = (hostPairs items).countP (isPassOf e.check_name)
    ∧ e.fail_count = (hostPairs items).countP (isFailOf e.check_name)
    ∧ e.failed_hosts = failedOf (hostPairs items) e.check_name
    ∧ 0 < e.pass_count + e.fail_count
    ∧ e.pass_rate_x100 = passRateX100 e.pass_count (e.pass_count + e.fail_count) := by
  have he' : e ∈ List.insertionSort byPassRate (checksBeforeSort items) := he
  have he2 : e ∈ checksBeforeSort items := (List.mem_insertionSort byPassRate).mp he'
  unfold checksBeforeSort at he2
  obtain ⟨q, hq, rfl⟩ := List.mem_map.mp he2
  unfold finalizeRates at hq
  obtain ⟨p0, hp0, rfl⟩ := List.mem_map.mp hq
  obtain ⟨n, s⟩ := p0
  have hnd : (((aggState items).stats).map Prod.fst).Nodup := by
    rw [aggState_eq_foldPairs]
    exact nodup_keys_foldPairs _ _ (by simp)
  have hlk : lookupS (aggState items).stats n = some s :=
    lookup_of_mem_nodup _ n s hnd hp0
  have hchar := lookup_foldPairs (hostPairs items) ⟨0, 0, 0, []⟩ n
  rw [← aggState_eq_foldPairs, hlk] at hchar
  have hchar2 : some s
      = (if (hostPairs items).countP (isPassOf n) + (hostPairs items).countP (isFailOf n) = 0
          then none
          else some ⟨(hostPairs items).countP (isPassOf n),
            (hostPairs items).countP (isFailOf n), 0, failedOf (hostPairs items) n⟩) := hchar
  by_cases hz : (hostPairs items).countP (isPassOf n) + (hostPairs items).countP (isFailOf n) = 0
  · rw [if_pos hz] at hchar2
    exact absurd hchar2 (by simp)
  · rw [if_neg hz] at hchar2
    have hs := Option.some.inj hchar2
    subst hs
    have hpos : 0 < (hostPairs items).countP (isPassOf n)
        + (hostPairs items).countP (isFailOf n) := Nat.pos_of_ne_zero hz
    simp only [if_pos hpos]
    exact ⟨trivial, trivial, trivial, hpos, trivial⟩

/-! ### Claim C3 — per-check statistics (amended) -/

/-- C3 (amended): for every fleet, unconditionally: every per-check
entry counts exactly the `pass` results in `pass_count`, exactly the
`fail` results in `fail_count` and lists exactly the `fail` results in
`failed_hosts` — a result with any other status (Unknown) is counted in
none of them, although it is counted in the fleet-wide `total_checks`,
which equals the total number of results — and `pass_rate` equals
`round(pass_count/(pass_count+fail_count)*100, 2)` (`0` for a zero
denominator).  Only the final bound carries the proviso: provided each
host reports each check_id at most once, `pass_count + fail_count` is
at most the number of hosts reporting that check_id (false without the
proviso: see `C3_duplicate_check_counterexample`). -/
theorem C3_per_check_stats (items : List HostItem) :
    (∀ e ∈ (getCisResults items).checks,
      e.pass_count = (hostPairs items).countP (isPassOf e.check_name)
      ∧ e.fail_count = (hostPairs items).countP (isFailOf e.check_name)
      ∧ e.failed_hosts = failedOf (hostPairs items) e.check_name
      ∧ e.pass_rate_x100 = (if 0 < e.pass_count + e.fail_count
          then passRateX100 e.pass_count (e.pass_count + e.fail_count) else 0)
      ∧ ((∀ item ∈ items, (item.cis_results.map resultCheckName).Nodup)
          → e.pass_count + e.fail_count ≤ hostsReporting items e.check_name))
    ∧ (getCisResults items).summary.total_checks = (hostPairs items).length := by
  constructor
  · intro e he
    obtain ⟨h1, h2, h3, h4, h5⟩ := checks_entry_characterization items e he
    refine ⟨h1, h2, h3, ?_, ?_⟩
    · rw [if_pos h4, h5]
    · intro hnodup
      rw [h1, h2]
      exact le_trans (countP_pass_add_fail_le (hostPairs items) e.check_name)
        (countP_name_le_hostsReporting items e.check_name hnodup)
  · show (aggState items).total_checks = _
    rw [aggState_eq_foldPairs]
    have h := (totals_foldPairs (hostPairs items) ⟨0, 0, 0, []⟩).1
    simpa using h

/-- C3 witness: in the fleet `itemsMixed` (host `h1` reports `X` pass
and `Y` unknown; host `h2` reports `X` fail), the entry for `X`
satisfies all conjuncts, with the at-most-once proviso of the final
bound discharged concretely; `total_checks` is 3 (the unknown result
counts). -/
theorem C3_per_check_stats_witness :
    (perCheckMixed.pass_count = (hostPairs itemsMixed).countP (isPassOf perCheckMixed.check_name)
      ∧ perCheckMixed.fail_count = (hostPairs itemsMixed).countP (isFailOf perCheckMixed.check_name)
      ∧ perCheckMixed.failed_hosts = failedOf (hostPairs itemsMixed) perCheckMixed.check_name
      ∧ perCheckMixed.pass_rate_x100
          = (if 0 < perCheckMixed.pass_count + perCheckMixed.fail_count
              then passRateX100 perCheckMixed.pass_count
                (perCheckMixed.pass_count + perCheckMixed.fail_count) else 0)
      ∧ perCheckMixed.pass_count + perCheckMixed.fail_count
          ≤ hostsReporting itemsMixed perCheckMixed.check_name)
    ∧ (getCisResults itemsMixed).summary.total_checks = (hostPairs itemsMixed).length := by
  have hthm := C3_per_check_stats itemsMixed
  have h := hthm.1 perCheckMixed (by decide)
  exact ⟨⟨h.1, h.2.1, h.2.2.1, h.2.2.2.1, h.2.2.2.2 (by decide)⟩, hthm.2⟩

/-! ### Claim C10 — all-Unknown check ids get no entry -/

/-- C10: a check_id all of whose results across the fleet have a status
other than `pass` and `fail` never gets a per-check entry: it is absent
from `checks`, from `critical_checks` and from `top_failing_checks`,
while `total_checks` still counts every result. -/
theorem C10_unknown_only_absent (items : List HostItem) (name : String)
    (h : ∀ p ∈ hostPairs items, resultCheckName p.2 = name
        → resultStatus p.2 ≠ "pass" ∧ resultStatus p.2 ≠ "fail") :
    name ∉ (getCisResults items).checks.map PerCheck.check_name
    ∧ name ∉ (getCisResults items).critical_checks.map PerCheck.check_name
    ∧ name ∉ (getCisResults items).top_failing_checks.map PerCheck.check_name
    ∧ (getCisResults items).summary.total_checks = (hostPairs items).length := by
  have hcp : (hostPairs items).countP (isPassOf name) = 0 := by
    rw [List.countP_eq_zero]
    intro p hp
    unfold isPassOf
    by_cases hn : resultCheckName p.2 = name
    · simp [(h p hp hn).1, hn]
    · simp [hn]
  have hcf : (hostPairs items).countP (isFailOf name) = 0 := by
    rw [List.countP_eq_zero]
    intro p hp
    unfold isFailOf
    by_cases hn : resultCheckName p.2 = name
    · simp [(h p hp hn).2, hn]
    · simp [hn]
  have hlk : lookupS (aggState items).stats name = none := by
    have hchar := lookup_foldPairs (hostPairs items) ⟨0, 0, 0, []⟩ name
    rw [← aggState_eq_foldPairs] at hchar
    have hchar2 : lookupS (aggState items).stats name
        = (if (hostPairs items).countP (isPassOf name)
              + (hostPairs items).countP (isFailOf name) = 0
            then none
            else some ⟨(hostPairs items).countP (isPassOf name),
              (hostPairs items).countP (isFailOf name), 0,
              failedOf (hostPairs items) name⟩) := hchar
    rw [hchar2, hcp, hcf]
    simp
  have hkeys : name ∉ ((aggState items).stats).map Prod.fst :=
    (lookup_none_iff _ _).mp hlk
  have hbefore : name ∉ (checksBeforeSort items).map PerCheck.check_name := by
    rw [checksBeforeSort_names]
    exact hkeys
  have hsorted : name ∉ (getCisResults items).checks.map PerCheck.check_name := by
    intro hc
    obtain ⟨e, hemem, hename⟩ := List.mem_map.mp hc
    have he2 : e ∈ checksBeforeSort items :=
      (List.mem_insertionSort byPassRate).mp hemem
    exact hbefore (List.mem_map.mpr ⟨e, he2, hename⟩)
  refine ⟨hsorted, ?_, ?_, ?_⟩
  · intro hc
    obtain ⟨e, hemem, hename⟩ := List.mem_map.mp hc
    have he2 : e ∈ (getCisResults items).checks := List.mem_of_mem_filter hemem
    exact hsorted (List.mem_map.mpr ⟨e, he2, hename⟩)
  · intro hc
    obtain ⟨e, hemem, hename⟩ := List.mem_map.mp hc
    have he2 : e ∈ (getCisResults items).checks := List.take_subset 5 _ hemem
    exact hsorted (List.mem_map.mpr ⟨e, he2, hename⟩)
  · show (aggState items).total_checks = _
    rw [aggState_eq_foldPairs]
    have htot := (totals_foldPairs (hostPairs items) ⟨0, 0, 0, []⟩).1
    simpa using htot

/-- C10 witness: in the one-host fleet where `Z` is reported only with
status `unknown` (and `W` with `pass`), `Z` is absent from all three
lists while `total_checks = 2`. -/
theorem C10_unknown_only_absent_witness :
    "Z" ∉ (getCisResults itemsUnknownZ).checks.map PerCheck.check_name
    ∧ "Z" ∉ (getCisResults itemsUnknownZ).critical_checks.map PerCheck.check_name
    ∧ "Z" ∉ (getCisResults itemsUnknownZ).top_failing_checks.map PerCheck.check_name
    ∧ (getCisResults itemsUnknownZ).summary.total_checks = (hostPairs itemsUnknownZ).length :=
  C10_unknown_only_absent itemsUnknownZ "Z" (by decide)

/-! ### String lemmas for the grep model (claim C8)

For a non-empty pattern with no whitespace characters (such as `yes`),
Python's `pattern in output.lower()` commutes with stripping, joining
on newlines and filtering: it holds of the stripped newline-join of the
matched lines iff it holds of one of the lines. -/

theorem ws_toLower (c : Char) (h : wsB c = true) : c.toLower = c := by
  unfold wsB at h
  simp only [Bool.or_eq_true, beq_iff_eq] at h
  rcases h with ((((rfl | rfl) | rfl) | rfl) | rfl) | rfl <;> decide

theorem isPrefLower_head_ws (p : List Char) (hne : p ≠ [])
    (hws : ∀ c ∈ p, wsB c = false) (w : Char) (hw : wsB w = true) (M : List Char) :
    isPrefLower p (w :: M) = false := by
  cases p with
  | nil => exact absurd rfl hne
  | cons a p' =>
    have ha : wsB a = false := hws a (List.mem_cons_self a p')
    have : (a == w.toLower) = false := by
      rw [ws_toLower w hw]
      simp only [beq_eq_false_iff_ne]
      intro hc
      subst hc
      rw [hw] at ha
      cases ha
    simp [isPrefLower, this]

theorem isPrefLower_append_ws_cons (p : List Char) (hws : ∀ c ∈ p, wsB c = false)
    (xs : List Char) (w : Char) (hw : wsB w = true) (M : List Char) :
    isPrefLower p (xs ++ w :: M) = isPrefLower p xs := by
  induction xs generalizing p with
  | nil =>
    cases p with
    | nil => rfl
    | cons a p' =>
      rw [List.nil_append]
      rw [isPrefLower_head_ws (a :: p') (by simp) hws w hw M]
      rfl
  | cons x xs' ih =>
    cases p with
    | nil => rfl
    | cons a p' =>
      show (a == x.toLower && isPrefLower p' (xs' ++ w :: M))
          = (a == x.toLower && isPrefLower p' xs')
      rw [ih p' (fun c hc => hws c (List.mem_cons_of_mem a hc))]

theorem isPrefLower_append_ws_suffix (p : List Char) (hws : ∀ c ∈ p, wsB c = false)
    (xs w : List Char) (hsw : ∀ c ∈ w, wsB c = true) :
    isPrefLower p (xs ++ w) = isPrefLower p xs := by
  induction xs generalizing p with
  | nil =>
    cases p with
    | nil => rfl
    | cons a p' =>
      rw [List.nil_append]
      cases w with
      | nil => rfl
      | cons c w' =>
        rw [isPrefLower_head_ws (a :: p') (by simp) hws c
          (hsw c (List.mem_cons_self c w')) w']
        rfl
  | cons x xs' ih =>
    cases p with
    | nil => rfl
    | cons a p' =>
      show (a == x.toLower && isPrefLower p' (xs' ++ w))
          = (a == x.toLower && isPrefLower p' xs')
      rw [ih p' (fun c hc => hws c (List.mem_cons_of_mem a hc))]

theorem hasSubLower_all_ws (p : List Char) (hne : p ≠ [])
    (hws : ∀ c ∈ p, wsB c = false) (w : List Char) (hsw : ∀ c ∈ w, wsB c = true) :
    hasSubLower p w = false := by
  induction w with
  | nil =>
    cases p with
    | nil => exact absurd rfl hne
    | cons a p' => rfl
  | cons c w' ih =>
    show (isPrefLower p (c :: w') || hasSubLower p w') = false
    rw [isPrefLower_head_ws p hne hws c (hsw c (List.mem_cons_self c w')) w',
      ih (fun x hx => hsw x (List.mem_cons_of_mem c hx))]
    rfl

theorem hasSubLower_append_ws_cons (p : List Char) (hne : p ≠ [])
    (hws : ∀ c ∈ p, wsB c = false) (xs : List Char) (w : Char) (hw : wsB w = true)
    (M : List Char) :
    hasSubLower p (xs ++ w :: M) = (hasSubLower p xs || hasSubLower p M) := by
  induction xs with
  | nil =>
    show hasSubLower p (w :: M) = (hasSubLower p [] || hasSubLower p M)
    show (isPrefLower p (w :: M) || hasSubLower p M) = (hasSubLower p [] || hasSubLower p M)
    rw [isPrefLower_head_ws p hne hws w hw M]
    cases p with
    | nil => exact absurd rfl hne
    | cons a p' => rfl
  | cons x xs' ih =>
    show (isPrefLower p ((x :: xs') ++ w :: M) || hasSubLower p (xs' ++ w :: M))
        = (hasSubLower p (x :: xs') || hasSubLower p M)
    rw [isPrefLower_append_ws_cons p hws (x :: xs') w hw M, ih]
    show (isPrefLower p (x :: xs') || (hasSubLower p xs' || hasSubLower p M))
        = ((isPrefLower p (x :: xs') || hasSubLower p xs') || hasSubLower p M)
    rw [Bool.or_assoc]

theorem hasSubLower_append_ws_suffix (p : List Char) (hne : p ≠ [])
    (hws : ∀ c ∈ p, wsB c = false) (xs w : List Char) (hsw : ∀ c ∈ w, wsB c = true) :
    hasSubLower p (xs ++ w) = hasSubLower p xs := by
  induction xs with
  | nil =>
    rw [List.nil_append, hasSubLower_all_ws p hne hws w hsw]
    cases p with
    | nil => exact absurd rfl hne
    | cons a p' => rfl
  | cons x xs' ih =>
    show (isPrefLower p ((x :: xs') ++ w) || hasSubLower p (xs' ++ w))
        = (isPrefLower p (x :: xs') || hasSubLower p xs')
    rw [isPrefLower_append_ws_suffix p hws (x :: xs') w hsw, ih]

theorem hasSubLower_lstrip (p : List Char) (hne : p ≠ [])
    (hws : ∀ c ∈ p, wsB c = false) (s : List Char) :
    hasSubLower p (lstripL s) = hasSubLower p s := by
  induction s with
  | nil => rfl
  | cons c s' ih =>
    by_cases hc : wsB c = true
    · rw [show lstripL (c :: s') = lstripL s' from by simp [lstripL, List.dropWhile, hc]]
      rw [ih]
      show hasSubLower p s' = (isPrefLower p (c :: s') || hasSubLower p s')
      rw [isPrefLower_head_ws p hne hws c hc s']
      rfl
    · have hc' : wsB c = false := by
        revert hc
        cases wsB c <;> simp
      rw [show lstripL (c :: s') = c :: s' from by simp [lstripL, List.dropWhile, hc']]

theorem rstrip_decomposition (s : List Char) :
    ∃ w, s = rstripL s ++ w ∧ ∀ c ∈ w, wsB c = true := by
  refine ⟨(s.reverse.takeWhile wsB).reverse, ?_, ?_⟩
  · have h1 : s.reverse = s.reverse.takeWhile wsB ++ s.reverse.dropWhile wsB :=
      (List.takeWhile_append_dropWhile wsB s.reverse).symm
    have h2 := congrArg List.reverse h1
    rw [List.reverse_reverse, List.reverse_append] at h2
    exact h2
  · intro c hc
    rw [List.mem_reverse] at hc
    exact List.mem_takeWhile_imp hc

theorem hasSubLower_rstrip (p : List Char) (hne : p ≠ [])
    (hws : ∀ c ∈ p, wsB c = false) (s : List Char) :
    hasSubLower p (rstripL s) = hasSubLower p s := by
  obtain ⟨w, hw1, hw2⟩ := rstrip_decomposition s
  conv_rhs => rw [hw1]
  exact (hasSubLower_append_ws_suffix p hne hws (rstripL s) w hw2).symm

theorem hasSubLower_pystrip (p : List Char) (hne : p ≠ [])
    (hws : ∀ c ∈ p, wsB c = false) (s : List Char) :
    hasSubLower p (pystripL s) = hasSubLower p s := by
  unfold pystripL
  rw [hasSubLower_rstrip p hne hws (lstripL s), hasSubLower_lstrip p hne hws s]

theorem hasSubLower_joinNl (p : List Char) (hne : p ≠ [])
    (hws : ∀ c ∈ p, wsB c = false) (L : List (List Char)) :
    hasSubLower p (joinNl L) = L.any (fun l => hasSubLower p l) := by
  induction L with
  | nil =>
    cases p with
    | nil => exact absurd rfl hne
    | cons a p' => rfl
  | cons l L ih =>
    cases L with
    | nil => simp [joinNl]
    | cons l' rest =>
      rw [show joinNl (l :: l' :: rest) = l ++ '\n' :: joinNl (l' :: rest) from rfl]
      rw [hasSubLower_append_ws_cons p hne hws l '\n' (by decide) (joinNl (l' :: rest)), ih]
      simp

theorem hasSubLower_ne_nil (p : List Char) (hne : p ≠ []) (s : List Char)
    (h : hasSubLower p s = true) : s ≠ [] := by
  intro hc
  subst hc
  cases p with
  | nil => exact absurd rfl hne
  | cons a p' => cases h

theorem truthy_absorb (p : List Char) (hne : p ≠ []) (L : List Char) :
    (!L.isEmpty && hasSubLower p L) = hasSubLower p L := by
  cases L with
  | nil =>
    cases p with
    | nil => exact absurd rfl hne
    | cons a p' => rfl
  | cons c L' => simp

theorem any_map_bool {α β : Type} (f : α → β) (g : β → Bool) (l : List α) :
    (l.map f).any g = l.any (fun x => g (f x)) := by
  induction l with
  | nil => rfl
  | cons a l ih =>
    show (g (f a) || (l.map f).any g) = (g (f a) || l.any (fun x => g (f x)))
    rw [ih]

theorem any_filter_bool {α : Type} (q f : α → Bool) (l : List α) :
    (l.filter q).any f = l.any (fun x => q x && f x) := by
  induction l with
  | nil => rfl
  | cons a l ih =>
    rw [List.filter_cons]
    by_cases hq : q a = true
    · rw [if_pos hq]
      show (f a || (l.filter q).any f) = ((q a && f a) || l.any (fun x => q x && f x))
      rw [ih, hq]
      simp
    · have hq' : q a = false := by
        revert hq
        cases q a <;> simp
      rw [if_neg (by simp [hq'])]
      show (l.filter q).any f = ((q a && f a) || l.any (fun x => q x && f x))
      rw [ih, hq']
      simp

/-! ### Claim C8 — characterization of the root-login rule (amended) -/

/-- C8 (amended): over the grep model of a host whose SSH config has
the given lines (or is absent), `check_root_login` returns `Fail`
exactly when the config is absent or some line matching
`^\s*PermitRootLogin` (case-insensitively) contains the substring `yes`
anywhere, case-insensitively — not only when the directive's value is
`yes` —; in every other host state it returns `Pass`.  (The original
claim is refuted by `C8_comment_yes_counterexample`: a directive set to
`no` with a comment containing `yes` yields Fail.) -/
theorem C8_root_login_characterization (present : Bool) (lines : List String) :
    ∃ r, check_root_login (envForConfig present lines) = .ok r
      ∧ r.check = "CIS 5.2.4 SSH Root Login"
      ∧ (r.status = "fail" ∨ r.status = "pass")
      ∧ (r.status = "fail"
          ↔ present = false
            ∨ ∃ l ∈ lines, matchPermitRootLogin l = true
                ∧ hasSubLower "yes".data l.data = true) := by
  have hyes_ne : ("yes".data : List Char) ≠ [] := by decide
  have hyes_ws : ∀ c ∈ ("yes".data : List Char), wsB c = false := by decide
  cases present with
  | false =>
    refine ⟨⟨"CIS 5.2.4 SSH Root Login", "fail", "SSH config not found at " ++ sshConfigFile⟩,
      ?_, rfl, Or.inl rfl, ?_⟩
    · show (if (envForConfig false lines).fileExists sshConfigFile = false then _ else _) = _
      rw [if_pos (by simp [envForConfig])]
    · simp
  | true =>
    have hfile : (envForConfig true lines).fileExists sshConfigFile = true := by
      simp [envForConfig]
    have hcond : (pyTruthy ((envForConfig true lines).runShellCommand grepRootLoginCmd).1
          && pyContainsLower "yes"
            ((((envForConfig true lines).runShellCommand grepRootLoginCmd).1).getD ""))
        = lines.any (fun l => matchPermitRootLogin l && hasSubLower "yes".data l.data) := by
      show (pyTruthy (some (grepRootLoginOut lines))
          && pyContainsLower "yes" ((some (grepRootLoginOut lines)).getD "")) = _
      rw [show (some (grepRootLoginOut lines)).getD "" = grepRootLoginOut lines from rfl]
      show (!(grepRootLoginOut lines).data.isEmpty
          && hasSubLower "yes".data (grepRootLoginOut lines).data) = _
      rw [truthy_absorb "yes".data hyes_ne]
      show hasSubLower "yes".data
          (pystripL (joinNl ((lines.filter matchPermitRootLogin).map String.data))) = _
      rw [hasSubLower_pystrip "yes".data hyes_ne hyes_ws,
        hasSubLower_joinNl "yes".data hyes_ne hyes_ws,
        any_map_bool, any_filter_bool]
    cases hany : lines.any (fun l => matchPermitRootLogin l && hasSubLower "yes".data l.data) with
    | true =>
      refine ⟨⟨"CIS 5.2.4 SSH Root Login", "fail", "Root login is enabled in " ++ sshConfigFile⟩,
        ?_, rfl, Or.inl rfl, ?_⟩
      · show (if (envForConfig true lines).fileExists sshConfigFile = false then _ else _) = _
        rw [if_neg (by simp [hfile])]
        dsimp only
        rw [show (pyTruthy ((envForConfig true lines).runShellCommand grepRootLoginCmd).1
            && pyContainsLower "yes"
              ((((envForConfig true lines).runShellCommand grepRootLoginCmd).1).getD ""))
            = true from hcond.trans hany]
        rfl
      · constructor
        · intro _
          refine Or.inr ?_
          obtain ⟨l, hl, hpl⟩ := List.any_eq_true.mp hany
          exact ⟨l, hl, Bool.and_eq_true_iff.mp hpl⟩
        · intro _
          rfl
    | false =>
      refine ⟨⟨"CIS 5.2.4 SSH Root Login", "pass", "Root login is properly disabled"⟩,
        ?_, rfl, Or.inr rfl, ?_⟩
      · show (if (envForConfig true lines).fileExists sshConfigFile = false then _ else _) = _
        rw [if_neg (by simp [hfile])]
        dsimp only
        rw [show (pyTruthy ((envForConfig true lines).runShellCommand grepRootLoginCmd).1
            && pyContainsLower "yes"
              ((((envForConfig true lines).runShellCommand grepRootLoginCmd).1).getD ""))
            = false from hcond.trans hany]
        rfl
      · constructor
        · intro hc
          exact absurd hc (by decide)
        · rintro (hc | ⟨l, hl, hm, hy⟩)
          · exact absurd hc (by decide)
          · have : lines.any (fun l => matchPermitRootLogin l && hasSubLower "yes".data l.data)
                = true := List.any_eq_true.mpr ⟨l, hl, by rw [hm, hy]; rfl⟩
            rw [hany] at this
            cases this

/-- C8 witness: the characterization instantiated at the
counterexample's config. -/
theorem C8_root_login_characterization_witness :
    ∃ r, check_root_login (envForConfig true linesRootLoginNo) = .ok r
      ∧ r.check = "CIS 5.2.4 SSH Root Login"
      ∧ (r.status = "fail" ∨ r.status = "pass")
      ∧ (r.status = "fail"
          ↔ true = false
            ∨ ∃ l ∈ linesRootLoginNo, matchPermitRootLogin l = true
                ∧ hasSubLower "yes".data l.data = true) :=
  C8_root_login_characterization true linesRootLoginNo

/-! ### Claim C4 — sort order of the checks list (amended) -/

theorem keys_foldPairs (l : List (String × CisResult)) (acc : AggState) :
    ((l.foldl stepPair acc).stats).map Prod.fst
      = l.foldl
          (fun ks p =>
            if (resultStatus p.2 == "pass" || resultStatus p.2 == "fail")
                && !ks.contains (resultCheckName p.2)
            then ks ++ [resultCheckName p.2] else ks)
          (acc.stats.map Prod.fst) := by
  induction l generalizing acc with
  | nil => rfl
  | cons p l ih =>
    rw [List.foldl_cons, List.foldl_cons, ih (stepPair acc p)]
    congr 1
    unfold stepPair stepResult
    by_cases hp : resultStatus p.2 = "pass"
    · simp only [hp, if_pos]
      rw [keys_updateStats]
      by_cases hmem : resultCheckName p.2 ∈ acc.stats.map Prod.fst
      · have hc : (acc.stats.map Prod.fst).contains (resultCheckName p.2) = true := by
          simpa [List.contains] using List.elem_iff.mpr hmem
        simp [hmem, hc]
      · have hc : (acc.stats.map Prod.fst).contains (resultCheckName p.2) = false := by
          rw [show (acc.stats.map Prod.fst).contains (resultCheckName p.2)
              = (acc.stats.map Prod.fst).elem (resultCheckName p.2) from rfl]
          revert hmem
          cases helem : (acc.stats.map Prod.fst).elem (resultCheckName p.2)
          · simp
          · intro hmem
            exact absurd (List.elem_iff.mp helem) hmem
        simp [hmem, hc]
    · by_cases hf : resultStatus p.2 = "fail"
      · simp only [hp, hf]
        rw [if_neg (by simp [hp]), if_pos (by simp [hf])]
        rw [keys_updateStats]
        by_cases hmem : resultCheckName p.2 ∈ acc.stats.map Prod.fst
        · have hc : (acc.stats.map Prod.fst).contains (resultCheckName p.2) = true := by
            simpa [List.contains] using List.elem_iff.mpr hmem
          simp [hmem, hc]
        · have hc : (acc.stats.map Prod.fst).contains (resultCheckName p.2) = false := by
            rw [show (acc.stats.map Prod.fst).contains (resultCheckName p.2)
                = (acc.stats.map Prod.fst).elem (resultCheckName p.2) from rfl]
            revert hmem
            cases helem : (acc.stats.map Prod.fst).elem (resultCheckName p.2)
            · simp
            · intro hmem
              exact absurd (List.elem_iff.mp helem) hmem
          simp [hmem, hc]
      · have hcond : (resultStatus p.2 == "pass" || resultStatus p.2 == "fail") = false := by
          simp [hp, hf]
        rw [hcond]
        rw [if_neg (by simp [hp]), if_neg (by simp [hf])]
        rfl

/-- C4 (amended): the aggregator's `checks` list is sorted ascending by
`pass_rate`, and the sort is stable with respect to the pre-sort
per-check list (for each rate value, the entries with that rate keep
the pre-sort order); the pre-sort order is the order of each check_id's
first `pass`-or-`fail` result across hosts — not the first-encountered
order of check_ids, because a result with any other status never
creates the `check_stats` entry (see `C4_tie_order_counterexample`) —;
and `top_failing_checks` is the first `min 5 n` entries of the sorted
list. -/
theorem C4_sorted_stable_top5 (items : List HostItem) :
    List.Sorted (· ≤ ·) ((getCisResults items).checks.map PerCheck.pass_rate_x100)
    ∧ (∀ q : ℕ, (getCisResults items).checks.filter (fun e => e.pass_rate_x100 == q)
        = (checksBeforeSort items).filter (fun e => e.pass_rate_x100 == q))
    ∧ (checksBeforeSort items).map PerCheck.check_name = firstPassFailNames items
    ∧ (getCisResults items).top_failing_checks = (getCisResults items).checks.take 5
    ∧ (getCisResults items).top_failing_checks.length = min 5 (getCisResults items).checks.length := by
  refine ⟨?_, ?_, ?_, rfl, ?_⟩
  · have h := List.sorted_insertionSort byPassRate (checksBeforeSort items)
    show ((List.insertionSort byPassRate (checksBeforeSort items)).map PerCheck.pass_rate_x100).Sorted (· ≤ ·)
    rw [List.Sorted, List.pairwise_map]
    exact h
  · intro q
    exact filter_insertionSort_rate q (checksBeforeSort items)
  · rw [checksBeforeSort_names, aggState_eq_foldPairs]
    exact keys_foldPairs (hostPairs items) ⟨0, 0, 0, []⟩
  · show (List.take 5 (List.insertionSort byPassRate (checksBeforeSort items))).length = _
    rw [List.length_take]
    rfl

/-- C4 counterexample: in the fleet `itemsTieUnknown`, check `A` is the
first-encountered check_id across hosts, but its entry is created only
at its first `pass` result (after `B`'s), so on a pass-rate tie the
sorted checks list is `[B, A]` — the claim's "ties preserving the
first-encountered insertion order of check_ids across hosts" is false
as stated. -/
theorem C4_tie_order_counterexample :
    firstEncounteredNames itemsTieUnknown = ["A", "B"]
    ∧ (getCisResults itemsTieUnknown).checks.map PerCheck.pass_rate_x100 = [10000, 10000]
    ∧ (getCisResults itemsTieUnknown).checks.map PerCheck.check_name = ["B", "A"] := by
  decide
